import Mathlib

/-!
Verification development for the reponews incremental-synchronization engine.

The definitions below are a shallow embedding of the Python sources:
  * `src/reponews/types.py`   — data model (users, repositories, activity events)
  * `src/reponews/qlobjs.py`  — GraphQL query objects and per-kind connections
  * `src/reponews/qmanager.py`— `ActivityQuery.make_query` / `parse_response`
  * `src/reponews/core.py`    — `State`, filtering pipeline, `get_new_activity`
  * `src/reponews/__main__.py`— the run/save control flow
Components of the current client (`Client.paginate` / `get_new_repo_activity`
/ the transport retry policy) are not present in the source tree; they are
modelled from the specification and marked as such in their doc comments.

Conventions: Python `datetime` timestamps are modelled as integers (only
ordering and equality matter); Python `dict`s are modelled as insertion-ordered
association lists with update-in-place semantics; GraphQL responses are
modelled structurally (a page of a connection is its `endCursor`,
`hasNextPage`, and list of item nodes).
-/

namespace Reponews

/-- Python `datetime` values: only their total order matters here. -/
abbrev Timestamp := Int

/-- Opaque pagination cursor token (`Cursor` in the spec's data model). -/
abbrev Cursor := String

/-! ### Insertion-ordered dictionaries (Python `dict`) -/

/-- A Python `dict` with keys `α` and values `β`: an insertion-ordered
association list whose keys are unique in actual use.  Assignment to an
existing key updates it in place; assignment to a new key appends. -/
abbrev Dict (α β : Type) := List (α × β)

/-- `d[k]` lookup returning `none` when the key is absent. -/
def dlookup [DecidableEq α] : Dict α β → α → Option β
  | [], _ => none
  | p :: ps, k => if p.1 = k then some p.2 else dlookup ps k

/-- `k in d` membership test. -/
def dmem [DecidableEq α] (d : Dict α β) (k : α) : Bool :=
  (dlookup d k).isSome

/-- `d[k] = v` assignment: update in place if present, else append. -/
def dset [DecidableEq α] : Dict α β → α → β → Dict α β
  | [], k, v => [(k, v)]
  | p :: ps, k, v => if p.1 = k then (k, v) :: ps else p :: dset ps k v

/-- `d.pop(k)` key removal (the value is read separately via `dlookup`). -/
def derase [DecidableEq α] : Dict α β → α → Dict α β
  | [], _ => []
  | p :: ps, k => if p.1 = k then ps else p :: derase ps k

/-! ### Data model (`types.py`) -/

/-- `types.User`: `name` is `none` for bots or users without a display name. -/
structure User where
  name : Option String := none
  login : String
  url : String
  isViewer : Bool := false
deriving DecidableEq

/-- `types.Repository`. -/
structure Repository where
  id : String
  owner : User
  name : String
  nameWithOwner : String
  url : String
  description : Option String := none
  descriptionHTML : String
deriving DecidableEq

/-- `types.ActivityType`: the closed enumeration of the seven activity kinds,
in the declaration order of the Python `Enum`. -/
inductive ActivityType where
  | issue
  | pr
  | discussion
  | release
  | tag
  | star
  | fork
deriving DecidableEq

/-- `ActivityType.api_name`: the GraphQL connection name of each kind. -/
def ActivityType.api_name : ActivityType → String
  | .issue => "issues"
  | .pr => "pullRequests"
  | .discussion => "discussions"
  | .release => "releases"
  | .tag => "tags"
  | .star => "stargazers"
  | .fork => "forks"

/-- `CursorDict = Dict[ActivityType, Optional[str]]`. -/
abbrev CursorDict := Dict ActivityType (Option Cursor)

/-- Payload common to `NewIssueEvent` / `NewPREvent` / `NewDiscussionEvent`. -/
structure IssueoidPayload where
  number : Int
  title : String
  author : User
  url : String
deriving DecidableEq

/-- Payload of `types.NewReleaseEvent`. -/
structure ReleasePayload where
  name : Option String := none
  tagName : String
  author : Option User := none
  description : Option String := none
  isDraft : Bool
  isPrerelease : Bool
  url : String
deriving DecidableEq

/-- Payload of `types.NewTagEvent`. -/
structure TagPayload where
  name : String
  user : Option User
deriving DecidableEq

/-- `types.RepoActivity`: the seven per-repository activity event variants.
Every variant carries its sort timestamp and its repository. -/
inductive RepoActivity where
  | issue (timestamp : Timestamp) (repo : Repository) (payload : IssueoidPayload)
  | pr (timestamp : Timestamp) (repo : Repository) (payload : IssueoidPayload)
  | discussion (timestamp : Timestamp) (repo : Repository) (payload : IssueoidPayload)
  | release (timestamp : Timestamp) (repo : Repository) (payload : ReleasePayload)
  | tag (timestamp : Timestamp) (repo : Repository) (payload : TagPayload)
  | star (timestamp : Timestamp) (repo : Repository) (user : User)
  | fork (timestamp : Timestamp) (repo : Repository) (fork : Repository)
deriving DecidableEq

/-- The `timestamp` field shared by all activity variants. -/
def RepoActivity.timestamp : RepoActivity → Timestamp
  | .issue t _ _ => t
  | .pr t _ _ => t
  | .discussion t _ _ => t
  | .release t _ _ => t
  | .tag t _ _ => t
  | .star t _ _ => t
  | .fork t _ _ => t

/-- The `is_mine` property of each activity event class (`types.py`). -/
def RepoActivity.is_mine : RepoActivity → Bool
  | .issue _ _ p => p.author.isViewer
  | .pr _ _ p => p.author.isViewer
  | .discussion _ _ p => p.author.isViewer
  | .release _ _ p => match p.author with
    | some a => a.isViewer
    | none => false
  | .tag _ _ p => match p.user with
    | some u => u.isViewer
    | none => false
  | .star _ _ u => u.isViewer
  | .fork _ _ f => f.owner.isViewer

/-- `types.Event`: an activity event or one of the three lifecycle variants. -/
inductive Event where
  | activity (a : RepoActivity)
  | tracked (timestamp : Timestamp) (repo : Repository)
  | untracked (timestamp : Timestamp) (repo : Repository)
  | renamed (timestamp : Timestamp) (repo : Repository) (old_repo : Repository)
deriving DecidableEq

/-- The `timestamp` field used as the sole global sort key. -/
def Event.timestamp : Event → Timestamp
  | .activity a => a.timestamp
  | .tracked t _ => t
  | .untracked t _ => t
  | .renamed t _ _ => t

/-! ### GraphQL query objects (`qlobjs.py`)

`qlobjs.Object` is a named GraphQL selection with arguments and sub-fields;
scalar fields are plain strings.  We keep the structure (the spec's claims
concern which connections a query composes) and do not model the string
renderer `Object.__str__`.  Argument values are kept verbatim as the Python
source writes them. -/

inductive GField where
  | scalar (name : String)
  | obj (name : String) (args : List (String × String)) (fields : List GField)

/-- `qlobjs.ACTOR_FIELDS`. -/
def ACTOR_FIELDS : List GField :=
  [.scalar ("login"), .scalar ("url"),
   .obj ("... on User") [] [.scalar ("name"), .scalar ("isViewer")]]

/-- `qlobjs.OWNER_FIELDS`. -/
def OWNER_FIELDS : List GField :=
  [.scalar ("login"), .scalar ("url"),
   .obj ("... on User") [] [.scalar ("name"), .scalar ("isViewer")],
   .obj ("... on Organization") [] [.scalar ("name")]]

/-- `qlobjs.USER_FIELDS`. -/
def USER_FIELDS : List GField :=
  [.scalar ("login"), .scalar ("url"), .scalar ("name"), .scalar ("isViewer")]

/-- `qlobjs.REPO_FIELDS`. -/
def REPO_FIELDS : List GField :=
  [.scalar ("id"), .scalar ("nameWithOwner"),
   .obj ("owner") [] OWNER_FIELDS,
   .scalar ("name"), .scalar ("url"), .scalar ("description"),
   .scalar ("descriptionHTML")]

/-- `qlobjs.mkissueoid_connection`: the forward-paginated connection for the
issueoid kinds — up to `$page_size` items strictly after the kind's cursor,
ordered by creation time ascending. -/
def mkissueoid_connection (name : String) : GField :=
  .obj name
    [("orderBy", "\x7bfield: CREATED_AT, direction: ASC\x7d"),
     ("first", "$page_size"),
     ("after", "$" ++ name ++ "_cursor")]
    [.obj ("nodes") []
      [.obj ("author") [] ACTOR_FIELDS,
       .scalar ("createdAt"), .scalar ("number"), .scalar ("title"),
       .scalar ("url")],
     .obj ("pageInfo") [] [.scalar ("endCursor"), .scalar ("hasNextPage")]]

/-- `qlobjs.mklastconn`: the 1-item "last page" connection used to bootstrap a
kind with no known cursor — it requests only `pageInfo.endCursor`. -/
def mklastconn (name : String) : GField :=
  .obj name
    [("orderBy", "\x7bfield: CREATED_AT, direction: ASC\x7d"), ("last", "1")]
    [.obj ("pageInfo") [] [.scalar ("endCursor")]]

/-- `qlobjs.RELEASE_CONNECTION`. -/
def RELEASE_CONNECTION : GField :=
  .obj ("releases")
    [("orderBy", "\x7bfield: CREATED_AT, direction: ASC\x7d"),
     ("first", "$page_size"), ("after", "$releases_cursor")]
    [.obj ("nodes") []
      [.scalar ("name"), .scalar ("tagName"),
       .obj ("author") [] USER_FIELDS,
       .scalar ("createdAt"), .scalar ("description"),
       .scalar ("descriptionHTML"), .scalar ("isPrerelease"),
       .scalar ("isDraft"), .scalar ("url")],
     .obj ("pageInfo") [] [.scalar ("endCursor"), .scalar ("hasNextPage")]]

/-- `qlobjs.TAG_CONNECTION`. -/
def TAG_CONNECTION : GField :=
  .obj ("tags: refs")
    [("refPrefix", "\"refs/tags/\""),
     ("orderBy", "\x7bfield: TAG_COMMIT_DATE, direction: ASC\x7d"),
     ("first", "$page_size"), ("after", "$tags_cursor")]
    [.obj ("nodes") []
      [.scalar ("name"),
       .obj ("target") []
         [.scalar ("__typename"),
          .obj ("... on Tag") []
            [.obj ("tagger") []
              [.scalar ("date"), .obj ("user") [] USER_FIELDS]],
          .obj ("... on Commit") []
            [.scalar ("committedDate"),
             .obj ("author") [] [.obj ("user") [] USER_FIELDS]]]],
     .obj ("pageInfo") [] [.scalar ("endCursor"), .scalar ("hasNextPage")]]

/-- `qlobjs.TAG_LAST_CONNECTION`. -/
def TAG_LAST_CONNECTION : GField :=
  .obj ("tags: refs")
    [("refPrefix", "\"refs/tags/\""),
     ("orderBy", "\x7bfield: TAG_COMMIT_DATE, direction: ASC\x7d"),
     ("last", "1")]
    [.obj ("pageInfo") [] [.scalar ("endCursor")]]

/-- `qlobjs.STAR_CONNECTION` (its item list is keyed `edges`, not `nodes`). -/
def STAR_CONNECTION : GField :=
  .obj ("stargazers")
    [("orderBy", "\x7bfield: STARRED_AT, direction: ASC\x7d"),
     ("first", "$page_size"), ("after", "$stargazers_cursor")]
    [.obj ("edges") [] [.scalar ("starredAt"), .obj ("user: node") [] USER_FIELDS],
     .obj ("pageInfo") [] [.scalar ("endCursor"), .scalar ("hasNextPage")]]

/-- `qlobjs.STAR_LAST_CONNECTION`. -/
def STAR_LAST_CONNECTION : GField :=
  .obj ("stargazers")
    [("orderBy", "\x7bfield: STARRED_AT, direction: ASC\x7d"), ("last", "1")]
    [.obj ("pageInfo") [] [.scalar ("endCursor")]]

/-- `qlobjs.FORK_CONNECTION`. -/
def FORK_CONNECTION : GField :=
  .obj ("forks")
    [("orderBy", "\x7bfield: CREATED_AT, direction: ASC\x7d"),
     ("first", "$page_size"), ("after", "$forks_cursor")]
    [.obj ("nodes") [] ([.scalar ("createdAt")] ++ REPO_FIELDS),
     .obj ("pageInfo") [] [.scalar ("endCursor"), .scalar ("hasNextPage")]]

/-- `event_cls.CONNECTION` of each kind (`types.py` class attributes). -/
def ActivityType.CONNECTION : ActivityType → GField
  | .issue => mkissueoid_connection ("issues")
  | .pr => mkissueoid_connection ("pullRequests")
  | .discussion => mkissueoid_connection ("discussions")
  | .release => RELEASE_CONNECTION
  | .tag => TAG_CONNECTION
  | .star => STAR_CONNECTION
  | .fork => FORK_CONNECTION

/-- `event_cls.LAST_CONNECTION` of each kind (`types.py` class attributes). -/
def ActivityType.LAST_CONNECTION : ActivityType → GField
  | .issue => mklastconn ("issues")
  | .pr => mklastconn ("pullRequests")
  | .discussion => mklastconn ("discussions")
  | .release => mklastconn ("releases")
  | .tag => TAG_LAST_CONNECTION
  | .star => STAR_LAST_CONNECTION
  | .fork => mklastconn ("forks")

/-! ### Wire responses and node parsing (`types.py` `from_node` methods) -/

/-- `author` / `user` objects on the wire: `name` and `isViewer` are absent
(and default) unless the actor is a `User`. -/
structure ActorNode where
  login : String
  url : String
  name : Option String := none
  isViewer : Bool := false
deriving DecidableEq

/-- Validating an actor node into a `User` (pydantic construction). -/
def ActorNode.toUser (a : ActorNode) : User :=
  { name := a.name, login := a.login, url := a.url, isViewer := a.isViewer }

/-- A node of an issueoid connection. -/
structure IssueoidNode where
  author : ActorNode
  createdAt : Timestamp
  number : Int
  title : String
  url : String
deriving DecidableEq

/-- A node of the releases connection. -/
structure ReleaseNode where
  name : Option String := none
  tagName : String
  author : Option ActorNode := none
  createdAt : Timestamp
  description : Option String := none
  isPrerelease : Bool
  isDraft : Bool
  url : String
deriving DecidableEq

/-- `target.author` on a commit pointed to by a tag; its `user` may be null. -/
structure CommitAuthor where
  user : Option ActorNode
deriving DecidableEq

/-- `target.tagger` of an annotated tag; its `date` and `user` may be null. -/
structure TaggerNode where
  date : Option Timestamp
  user : Option ActorNode
deriving DecidableEq

/-- The `target` of a tag ref: a commit, an annotated tag object, or anything
else (which `NewTagEvent.from_node` treats as bogus). -/
inductive TagTarget where
  | commit (committedDate : Option Timestamp) (author : Option CommitAuthor)
  | annotated (tagger : Option TaggerNode)
  | other
deriving DecidableEq

/-- A node of the tags connection. -/
structure TagNode where
  name : String
  target : TagTarget
deriving DecidableEq

/-- An edge of the stargazers connection. -/
structure StarNode where
  starredAt : Timestamp
  user : ActorNode
deriving DecidableEq

/-- A node of the forks connection. -/
structure ForkNode where
  createdAt : Timestamp
  fork : Repository
deriving DecidableEq

/-- An item node of any activity connection. -/
inductive Node where
  | issueoid (n : IssueoidNode)
  | release (n : ReleaseNode)
  | tagNode (n : TagNode)
  | star (n : StarNode)
  | fork (n : ForkNode)
deriving DecidableEq

/-- `NewTagEvent.from_node` (`types.py`): the tag's timestamp and user are
derived from its target; a target that is neither a commit nor an annotated
tag, or that is missing its date, is bogus (`none` = `BogusEventError`). -/
def tagFromNode (repo : Repository) (n : TagNode) : Option RepoActivity :=
  match n.target with
  | .commit committedDate author =>
    match committedDate with
    | none => none
    | some ts =>
      let user : Option ActorNode :=
        match author with
        | some a => a.user
        | none => none
      some (.tag ts repo { name := n.name, user := user.map ActorNode.toUser })
  | .annotated tagger =>
    match tagger with
    | none => none
    | some t =>
      match t.date with
      | none => none
      | some ts =>
        some (.tag ts repo { name := n.name, user := t.user.map ActorNode.toUser })
  | .other => none

/-- `it.event_cls.from_node` dispatched on the kind (`types.py`).  `none`
models `BogusEventError` (only raised for tag nodes); a node whose shape does
not match the kind cannot arise from the typed wire queries and is also mapped
to `none`. -/
def from_node (it : ActivityType) (repo : Repository) (node : Node) :
    Option RepoActivity :=
  match it, node with
  | .issue, .issueoid n =>
    some (.issue n.createdAt repo
      { number := n.number, title := n.title, author := n.author.toUser,
        url := n.url })
  | .pr, .issueoid n =>
    some (.pr n.createdAt repo
      { number := n.number, title := n.title, author := n.author.toUser,
        url := n.url })
  | .discussion, .issueoid n =>
    some (.discussion n.createdAt repo
      { number := n.number, title := n.title, author := n.author.toUser,
        url := n.url })
  | .release, .release n =>
    some (.release n.createdAt repo
      { name := n.name, tagName := n.tagName,
        author := n.author.map ActorNode.toUser,
        description := n.description, isDraft := n.isDraft,
        isPrerelease := n.isPrerelease, url := n.url })
  | .tag, .tagNode n => tagFromNode repo n
  | .star, .star n => some (.star n.starredAt repo n.user.toUser)
  | .fork, .fork n => some (.fork n.createdAt repo n.fork)
  | _, _ => none

/-- One connection's slice of a response page: `pageInfo.endCursor`,
`pageInfo.hasNextPage`, and the item nodes.  Bootstrap ("last page") queries
request neither `hasNextPage` nor nodes, so those components default to
`false` / `[]` in their responses (and `parse_response` never reads them). -/
structure ConnResponse where
  endCursor : Option Cursor := none
  hasNextPage : Bool := false
  nodes : List Node := []
deriving DecidableEq

/-- `data["data"]["node"]` of an activity query response, keyed directly by
kind (each kind's slice sits under its unique `api_name`). -/
abbrev Response := ActivityType → ConnResponse

/-! ### The activity query session (`qmanager.ActivityQuery`) -/

/-- `qmanager.PAGE_SIZE`. -/
def PAGE_SIZE : Int := 50

/-- A GraphQL variable value. -/
inductive JValue where
  | s (v : String)
  | n (v : Int)
  | null
deriving DecidableEq

/-- The variable value carried by an `Optional[str]` cursor. -/
def JValue.ofCursor : Option Cursor → JValue
  | some c => .s c
  | none => .null

/-- `qmanager.ActivityQuery`: one query session for a repository and a set of
kinds, holding the per-kind cursors and the session's `has_next_page` flag
(initially `True`). -/
structure ActivityQuery where
  repo : Repository
  types : List ActivityType
  cursors : CursorDict
  has_next_page : Bool := true
deriving DecidableEq

/-- The loop body of `ActivityQuery.make_query` (`qmanager.py` lines 150-172):
for each kind, a kind with a cursor entry (even a null one) contributes its
forward `CONNECTION` plus `$page_size` and `$<api_name>_cursor` varsDict,
while a kind without an entry contributes its bootstrap `LAST_CONNECTION`
and no varsDict. -/
def makeQueryGo (cursors : CursorDict) :
    List ActivityType →
    Dict String String × Dict String JValue × List GField →
    Dict String String × Dict String JValue × List GField
  | [], acc => acc
  | it :: rest, (varDefs, varsDict, connections) =>
    if dmem cursors it then
      makeQueryGo cursors rest
        (dset (dset varDefs ("$page_size") ("Int!"))
           ("$" ++ it.api_name ++ "_cursor") ("String"),
         dset (dset varsDict ("page_size") (.n PAGE_SIZE))
           (it.api_name ++ "_cursor")
           (JValue.ofCursor ((dlookup cursors it).getD none)),
         connections ++ [it.CONNECTION])
    else
      makeQueryGo cursors rest
        (varDefs, varsDict, connections ++ [it.LAST_CONNECTION])

/-- `ActivityQuery.make_query`: the composed query document (as its `Object`
tree) and the variable bag.  The Python version renders the document to a
string; we keep the tree, whose `node`/`... on Repository` spine wraps the
per-kind connections. -/
def ActivityQuery.make_query (aq : ActivityQuery) : GField × Dict String JValue :=
  let acc :=
    makeQueryGo aq.cursors aq.types
      ([("$repo_id", "ID!")], [("repo_id", .s aq.repo.id)], [])
  (.obj ("query") acc.1
    [.obj ("node") [("id", "$repo_id")]
      [.obj ("... on Repository") [] acc.2.2]],
   acc.2.1)

/-- The connections component of `make_query`, for stating claims about the
composed query. -/
def ActivityQuery.query_connections (aq : ActivityQuery) : List GField :=
  (makeQueryGo aq.cursors aq.types
    ([("$repo_id", "ID!")], [("repo_id", .s aq.repo.id)], [])).2.2

/-- The loop body of `ActivityQuery.parse_response` (`qmanager.py` lines
174-196), threading the accumulated events, the session `has_next_page` flag
(reset to `False` before the loop) and the mutable cursor dict:
  * a kind with a cursor entry is in forward mode: its page's events are
    parsed (bogus ones silently discarded), `has_next_page` is raised if the
    page reports more, and the cursor advances only on a non-null end-cursor;
  * a kind without an entry is in bootstrap mode: no events are read and the
    end-cursor (possibly null) is stored as the kind's new cursor entry. -/
def parseResponseGo (repo : Repository) (data : Response) :
    List ActivityType →
    List RepoActivity × Bool × CursorDict →
    List RepoActivity × Bool × CursorDict
  | [], acc => acc
  | it :: rest, (events, hnp, cursors) =>
    let root := data it
    let new_cursor := root.endCursor
    if dmem cursors it then
      parseResponseGo repo data rest
        (events ++ root.nodes.filterMap (from_node it repo),
         hnp || root.hasNextPage,
         match new_cursor with
         | some c => dset cursors it (some c)
         | none => cursors)
    else
      parseResponseGo repo data rest
        (events, hnp, dset cursors it new_cursor)

/-- `ActivityQuery.parse_response`: parse one round trip's response, returning
the new events and the updated session. -/
def ActivityQuery.parse_response (aq : ActivityQuery) (data : Response) :
    List RepoActivity × ActivityQuery :=
  let r := parseResponseGo aq.repo data aq.types ([], false, aq.cursors)
  (r.1, { aq with has_next_page := r.2.1, cursors := r.2.2 })

/-! ### The pagination driver (current `client.py`, not under `src/`) -/

/-- Modelled from the spec: `Client.paginate` of the current client is absent
from the source tree (only its callers and tests are present); per the spec's
pagination rules it repeats round trips while the session reports more pages,
each round trip sending `make_query` and feeding the response to
`parse_response`.  The server's successive responses are supplied as a list;
the loop stops when the session is exhausted (or when the supplied responses
run out). -/
def Client.paginate :
    ActivityQuery → List Response → List RepoActivity × ActivityQuery
  | aq, [] => ([], aq)
  | aq, r :: rs =>
    if aq.has_next_page then
      let p := aq.parse_response r
      let q := Client.paginate p.2 rs
      (p.1 ++ q.1, q.2)
    else ([], aq)

/-- Modelled from the spec: `Client.get_new_repo_activity` of the current
client is absent from the source tree; per the spec it runs one query session
for the repository's active kinds starting from the stored cursors and
returns the collected events together with the session's final cursors. -/
def Client.get_new_repo_activity (repo : Repository) (types : List ActivityType)
    (cursors : CursorDict) (responses : List Response) :
    List RepoActivity × CursorDict :=
  let aq : ActivityQuery :=
    { repo := repo, types := types, cursors := cursors }
  let p := Client.paginate aq responses
  (p.1, p.2.cursors)

/-! ### Activity preferences (`config.py`) -/

/-- `config.ActivityPrefs`: the resolved per-repository preferences — one
boolean per kind plus `prereleases`, `drafts`, `released_tags` and
`my_activity` — with the source's defaults. -/
structure ActivityPrefs where
  issues : Bool := true
  pull_requests : Bool := true
  discussions : Bool := true
  releases : Bool := true
  tags : Bool := true
  released_tags : Bool := false
  stars : Bool := true
  forks : Bool := true
  prereleases : Bool := true
  drafts : Bool := true
  my_activity : Bool := false
deriving DecidableEq

/-- `ActivityPrefs.get_activity_types`: the enabled kinds, in the source's
fixed order. -/
def ActivityPrefs.get_activity_types (p : ActivityPrefs) : List ActivityType :=
  (if p.issues then [ActivityType.issue] else []) ++
  (if p.pull_requests then [ActivityType.pr] else []) ++
  (if p.discussions then [ActivityType.discussion] else []) ++
  (if p.releases then [ActivityType.release] else []) ++
  (if p.tags then [ActivityType.tag] else []) ++
  (if p.stars then [ActivityType.star] else []) ++
  (if p.forks then [ActivityType.fork] else [])

/-! ### Filtering pipeline (`core.RepoNews.get_new_activity`, lines 140-179)

The three successive reassignments of `new_events` in the source are three
pure stages; `applyFilters` is their composition in source order. -/

/-- Self-activity filter (`core.py` lines 140-147): with `my_activity` off,
drop every event whose `is_mine` predicate is true. -/
def filterMyActivity (activity : ActivityPrefs) (new_events : List RepoActivity) :
    List RepoActivity :=
  if !activity.my_activity then
    new_events.filter (fun ev => !ev.is_mine)
  else new_events

/-- Whether the release-quality filter keeps an event (`core.py` 150-159). -/
def releaseQualityKeep (activity : ActivityPrefs) (ev : RepoActivity) : Bool :=
  match ev with
  | .release _ _ p =>
    if !activity.prereleases && p.isPrerelease then false
    else if !activity.drafts && p.isDraft then false
    else true
  | _ => true

/-- Release quality filter (`core.py` lines 148-160): when releases are
tracked and prereleases or drafts are disabled, drop releases so flagged. -/
def filterReleaseQuality (activity : ActivityPrefs)
    (new_events : List RepoActivity) : List RepoActivity :=
  if activity.releases && (!activity.prereleases || !activity.drafts) then
    new_events.filter (releaseQualityKeep activity)
  else new_events

/-- Whether an activity event is a tag event. -/
def RepoActivity.isTagEvent : RepoActivity → Bool
  | .tag _ _ _ => true
  | _ => false

/-- The tag names of the release events in a batch (`release_tags` in the
source's collision-filter loop). -/
def releaseTagNames (events : List RepoActivity) : List String :=
  events.filterMap (fun ev =>
    match ev with
    | .release _ _ p => some p.tagName
    | _ => none)

/-- Tag/release collision filter (`core.py` lines 161-179): when both Release
and Tag are active and `released_tags` is off, pass the non-tag events
through (collecting the retained releases' tag names), then append the tag
events whose name matches none of those tag names. -/
def filterReleasedTags (activity : ActivityPrefs)
    (new_events : List RepoActivity) : List RepoActivity :=
  if activity.releases && activity.tags && !activity.released_tags then
    let release_tags := releaseTagNames new_events
    (new_events.filter (fun ev => !ev.isTagEvent)) ++
      (new_events.filter (fun ev => ev.isTagEvent)).filter (fun ev =>
        match ev with
        | .tag _ _ p => !release_tags.contains p.name
        | _ => true)
  else new_events

/-- The filtering pipeline applied to one repository's fetched events
(`core.py` lines 139-179), in source order. -/
def applyFilters (activity : ActivityPrefs) (new_events : List RepoActivity) :
    List RepoActivity :=
  filterReleasedTags activity
    (filterReleaseQuality activity (filterMyActivity activity new_events))

/-! ### State store and reconciliation (`core.State`) -/

/-- `core.RepoState`: a repository and its per-kind cursors. -/
structure RepoState where
  repo : Repository
  cursors : CursorDict := []
deriving DecidableEq

/-- `core.State`: the old snapshot (progressively consumed), the new snapshot
being built, and the lifecycle events recorded so far.  Snapshots are keyed
by the opaque repository id. -/
structure State where
  old_state : Dict String RepoState
  new_state : Dict String RepoState := []
  state_events : List Event := []
deriving DecidableEq

/-- `State.get_cursors`: the prior cursors of a repository, or an empty dict
if it is unseen. -/
def State.get_cursors (st : State) (repo : Repository) : CursorDict :=
  match dlookup st.old_state repo.id with
  | some rs => rs.cursors
  | none => []

/-- `State.set_cursors` (`core.py` lines 59-80): commit a repository's new
cursors.  Pops the id from the old working set; if it was absent, emits
Tracked; if present under a different full name, emits Renamed; then inserts
the updated `RepoState` into the new snapshot.  The Python source stamps the
lifecycle event with `datetime.now()`; the clock reading is passed in
explicitly here. -/
def State.set_cursors (st : State) (now : Timestamp) (repo : Repository)
    (cursors : CursorDict) : State :=
  match dlookup st.old_state repo.id with
  | none =>
    { old_state := st.old_state,
      state_events := st.state_events ++ [.tracked now repo],
      new_state := dset st.new_state repo.id { repo := repo, cursors := cursors } }
  | some old =>
    { old_state := derase st.old_state repo.id,
      state_events :=
        if old.repo.nameWithOwner ≠ repo.nameWithOwner then
          st.state_events ++ [.renamed now repo old.repo]
        else st.state_events,
      new_state := dset st.new_state repo.id { repo := repo, cursors := cursors } }

/-- `State.get_state_events` (`core.py` lines 82-90): the recorded lifecycle
events followed by one Untracked event (stamped with the current clock
reading) per repository left in the old working set. -/
def State.get_state_events (st : State) (now : Timestamp) : List Event :=
  st.state_events ++ st.old_state.map (fun p => .untracked now p.2.repo)

/-! ### The synchronization run (`core.RepoNews.get_new_activity`) -/

/-- One enumerated repository's visit during a run: the repository, its
resolved activity preferences, the server's successive responses to its
activity query session, and the clock reading at commit time. -/
structure RepoVisit where
  repo : Repository
  prefs : ActivityPrefs
  responses : List Response
  now : Timestamp

/-- The per-repository loop body of `get_new_activity` (`core.py` lines
130-181): resolve the active kinds (skipping the repository when none),
fetch its new activity from the stored cursors, run the filtering pipeline,
append the surviving events, and commit the new cursors. -/
def visitStep (acc : List Event × State) (v : RepoVisit) : List Event × State :=
  let types := v.prefs.get_activity_types
  if types.isEmpty then acc
  else
    let fetched :=
      Client.get_new_repo_activity v.repo types (acc.2.get_cursors v.repo)
        v.responses
    let new_events := applyFilters v.prefs fetched.1
    (acc.1 ++ new_events.map Event.activity,
     acc.2.set_cursors v.now v.repo fetched.2)

/-- The run's event list before the final sort (`core.py` lines 129-182):
per-repository activity events in production order, then the lifecycle
events. -/
def producedEvents (st0 : State) (visits : List RepoVisit) (endNow : Timestamp) :
    List Event :=
  let p := visits.foldl visitStep ([], st0)
  p.1 ++ p.2.get_state_events endNow

/-- The state after all repositories have been committed. -/
def runFinalState (st0 : State) (visits : List RepoVisit) : State :=
  (visits.foldl visitStep ([], st0)).2

/-- The comparator of the final `events.sort(key=attrgetter("timestamp"))`. -/
def eventLE (a b : Event) : Bool := a.timestamp ≤ b.timestamp

/-- `RepoNews.get_new_activity` (`core.py` lines 128-184): the produced events
stably sorted ascending by timestamp (Python's `list.sort` is stable), paired
with the final state. -/
def RepoNews.get_new_activity (st0 : State) (visits : List RepoVisit)
    (endNow : Timestamp) : List Event × State :=
  ((producedEvents st0 visits endNow).mergeSort eventLE,
   runFinalState st0 visits)

/-! ### Persistence and the run's control flow (`core.State.save`,
`__main__.main`) -/

/-- The persisted state file: `none` while the file does not exist, otherwise
the stored snapshot. -/
structure StateFile where
  contents : Option (Dict String RepoState)
deriving DecidableEq

/-- `State.save` (`core.py` lines 92-94): overwrite the state file with the
new snapshot in a single write. -/
def State.save (st : State) (_fs : StateFile) : StateFile :=
  { contents := some st.new_state }

/-- A fetch step of the run that may raise (a visit whose round trips fail
fatally is `none`). -/
abbrev FallibleVisit := Option RepoVisit

/-- `get_new_activity` when any visit's fetch may raise: the fold aborts at
the first failing visit, propagating the exception (`Except.error`); nothing
is persisted by this function in the source and nothing is persisted here. -/
def getNewActivityExc (st0 : State) (visits : List FallibleVisit)
    (endNow : Timestamp) : Except Unit (List Event × State) :=
  let rec go (acc : List Event × State) :
      List FallibleVisit → Except Unit (List Event × State)
    | [] => .ok acc
    | none :: _ => .error ()
    | some v :: rest => go (visitStep acc v) rest
  match go ([], st0) visits with
  | .error e => .error e
  | .ok p =>
    .ok ((p.1 ++ p.2.get_state_events endNow).mergeSort eventLE, p.2)

/-- `__main__.main` (lines 92-125), for the e-mail modes: run
`get_new_activity`; if there are events, compose and send the e-mail (which
may itself raise, e.g. a missing recipient); only then, when `--save` is in
effect, write the state file via `State.save`.  Returns the error if any,
the resulting file, and the number of writes performed on the state file so
that "written exactly once / no partial or incremental writes" is a statement
of the model rather than an assumption. -/
def mainRun (fs : StateFile) (st0 : State) (visits : List FallibleVisit)
    (endNow : Timestamp) (sendFails : Bool) (save : Bool) :
    Option Unit × StateFile × Nat :=
  match getNewActivityExc st0 visits endNow with
  | .error e => (some e, fs, 0)
  | .ok (events, st) =>
    if events ≠ [] && sendFails then (some (), fs, 0)
    else if save then (none, st.save fs, 1)
    else (none, fs, 0)

/-! ### Transport retry policy (current `client.py`, not under `src/`) -/

/-- One attempt's outcome at the transport: a network-level failure, an HTTP
response with a status code (with or without a parseable error body), or a
successful 2xx response. -/
inductive HttpOutcome where
  | netError
  | http (status : Nat) (parseableBody : Bool)
  | success
deriving DecidableEq

/-- Modelled from the spec: the retryable conditions of the current
transport, which is not under `src/` — network-level failures and HTTP
500/502/503/504. -/
def retriable : HttpOutcome → Bool
  | .netError => true
  | .http s _ => s = 500 || s = 502 || s = 503 || s = 504
  | .success => false

/-- Modelled from the spec: the delay before retry attempt `i`,
`min(1.25 * 2^i, 120)` seconds. -/
def backoffDelay (i : Nat) : ℚ := min ((5 / 4 : ℚ) * 2 ^ i) 120

/-- The result of issuing one logical query through the transport. -/
inductive TransportResult where
  | success
  | fatalExhausted
  | fatalImmediate
deriving DecidableEq

/-- Modelled from the spec: the retry loop of the current transport, which is
not under `src/`.  `retries` counts the retries already performed (at most
5); each retryable failure before exhaustion sleeps `backoffDelay` of the
next attempt index and retries; any other non-2xx outcome (including a
malformed error body) is fatal immediately with no retry.  Returns the
result and the list of delays slept, in order. -/
def retryLoop : Nat → List HttpOutcome → TransportResult × List ℚ
  | _, [] => (.fatalImmediate, [])
  | retries, o :: rest =>
    match o with
    | .success => (.success, [])
    | _ =>
      if retriable o then
        if retries < 5 then
          let (res, delays) := retryLoop (retries + 1) rest
          (res, backoffDelay (retries + 1) :: delays)
        else (.fatalExhausted, [])
      else (.fatalImmediate, [])

/-- Modelled from the spec: `Client.query`'s transport behaviour over the
successive outcomes the server produces for one logical query. -/
def Client.query_transport (outcomes : List HttpOutcome) :
    TransportResult × List ℚ :=
  retryLoop 0 outcomes

/-! ### Helper definitions and concrete sample data (for the
claim statements and witnesses) -/

/-- The events a kind contributes to one `parse_response` round: its page's
parsed nodes in forward mode, nothing in bootstrap mode. -/
def kindEvents (data : Response) (repo : Repository) (cursors : CursorDict)
    (it : ActivityType) : List RepoActivity :=
  if dmem cursors it then (data it).nodes.filterMap (from_node it repo) else []

/-- A bootstrap ("last page") connection: it requests a single latest item
(`last: 1`) and only the page's `endCursor`, no item data. -/
def isLastPageConn : GField → Bool
  | .obj _ args fields =>
    args.any (fun p => p.1 == "last" && p.2 == "1") &&
      match fields with
      | [GField.obj pi [] [GField.scalar ec]] =>
        pi == "pageInfo" && ec == "endCursor"
      | _ => false
  | .scalar _ => false

/-- A response whose every connection slice is the given page (only the
queried kind's slice is ever read in a single-kind session). -/
def singleKindResponse (p : ConnResponse) : Response := fun _ => p

/-- The cursor-dict update one forward-mode page performs for a kind
(`qmanager.py` lines 191-193): advance on a non-null end-cursor, keep
otherwise. -/
def advanceCursor (it : ActivityType) (c : CursorDict) (p : ConnResponse) :
    CursorDict :=
  match p.endCursor with
  | some x => dset c it (some x)
  | none => c

/-- The creation-order sort key the wire orders a connection's nodes by
(`createdAt` / `starredAt` / the tag target's date; bogus tag nodes, which
are discarded, get an arbitrary key). -/
def Node.sortKey : Node → Timestamp
  | .issueoid n => n.createdAt
  | .release n => n.createdAt
  | .tagNode n =>
    match n.target with
    | .commit (some ts) _ => ts
    | .commit none _ => 0
    | .annotated (some t) =>
      match t.date with
      | some ts => ts
      | none => 0
    | .annotated none => 0
    | .other => 0
  | .star n => n.starredAt
  | .fork n => n.createdAt

/-- The authenticated viewer, as in the repository's test data. -/
def sampleUser : User :=
  { name := some ("Vid Ewer"), login := "viewer",
    url := "https://github.com/viewer", isViewer := true }

/-- A tracked repository, as in the repository's test data. -/
def sampleRepo : Repository :=
  { id := "id:viewer/repo", owner := sampleUser, name := "repo",
    nameWithOwner := "viewer/repo", url := "https://github.com/viewer/repo",
    description := some ("My Very Special Repo(tm)"),
    descriptionHTML := "<div>My Very Special Repo(tm)</div>" }

/-- A response page with zero items and a null end-cursor. -/
def nullConnResponse : ConnResponse := { endCursor := none }

/-- A response all of whose connection slices are empty with null end-cursor. -/
def nullResponse : Response := fun _ => nullConnResponse

/-- A forward session over pull requests with a known cursor. -/
def sampleFwdAQ : ActivityQuery :=
  { repo := sampleRepo, types := [ActivityType.pr],
    cursors := [(ActivityType.pr, some ("cursor:0001"))] }

/-- A bootstrap session over discussions (no cursor entry). -/
def bootAQdisc : ActivityQuery :=
  { repo := sampleRepo, types := [ActivityType.discussion], cursors := [] }

/-- A session over discussions whose cursor entry is an explicit null (the
state after a bootstrap of a kind with no history), as in the source's test
`test_activity_query_null_cursor_some_events`. -/
def discNullCursorAQ : ActivityQuery :=
  { repo := sampleRepo, types := [ActivityType.discussion],
    cursors := [(ActivityType.discussion, none)] }

/-- A discussion item node. -/
def discNode : Node :=
  .issueoid
    { author := { login := "need-to-know",
                  url := "https://github.com/need-to-know",
                  name := some ("Please tell me"), isViewer := false },
      createdAt := 100, number := 42, title := "How is everybody doing?",
      url := "https://github.com/viewer/repo/discussions/42" }

/-- A one-page response carrying one discussion node. -/
def discPageResponse : Response :=
  fun _ => { endCursor := some ("cursor:d001"), hasNextPage := false,
             nodes := [discNode] }

/-- A bootstrap response whose latest-item end-cursor is non-null. -/
def starBootResponse : Response :=
  fun _ => { endCursor := some ("sc") }

/-- First pull-request page of the spec's pagination example: two nodes and
more to come. -/
def prPage1 : ConnResponse :=
  { endCursor := some ("cursor:0002"), hasNextPage := true,
    nodes :=
      [.issueoid
        { author := { login := "a.contributor",
                      url := "https://github.com/a.contributor",
                      name := some ("A. Contributor"), isViewer := false },
          createdAt := 10, number := 1, title := "Add a feature",
          url := "https://github.com/viewer/repo/pull/1" },
       .issueoid
        { author := { login := "prbot",
                      url := "https://github.com/apps/prbot" },
          createdAt := 20, number := 2, title := "Automated pull request",
          url := "https://github.com/viewer/repo/pull/2" }] }

/-- Second pull-request page of the spec's pagination example: one node, no
more pages. -/
def prPage2 : ConnResponse :=
  { endCursor := some ("cursor:0003"), hasNextPage := false,
    nodes :=
      [.issueoid
        { author := { login := "new-user",
                      url := "https://github.com/new-user" },
          createdAt := 30, number := 4, title := "What am I doing?",
          url := "https://github.com/viewer/repo/pull/4" }] }

/-- The position of an activity event's kind in the registry/preference
order, as the global-ordering claim's tie-breaking gloss reads it (lifecycle
events get a sentinel past the seven kinds). -/
def Event.kindIndex : Event → Nat
  | .activity (.issue _ _ _) => 0
  | .activity (.pr _ _ _) => 1
  | .activity (.discussion _ _ _) => 2
  | .activity (.release _ _ _) => 3
  | .activity (.tag _ _ _) => 4
  | .activity (.star _ _ _) => 5
  | .activity (.fork _ _ _) => 6
  | _ => 7

/-- Preferences tracking only issues and discussions, with self-activity
reported (no filtering). -/
def c4prefs : ActivityPrefs :=
  { pull_requests := false, releases := false, tags := false, stars := false,
    forks := false, my_activity := true }

/-- An uninvolved author. -/
def c4actor : ActorNode :=
  { login := "alice", url := "https://github.com/alice" }

/-- Issue created at time 1 (page 1 of the issues history). -/
def c4issueNode1 : Node :=
  .issueoid { author := c4actor, createdAt := 1, number := 1,
              title := "first issue", url := "ui1" }

/-- Issue created at time 5 (page 2 of the issues history). -/
def c4issueNode5 : Node :=
  .issueoid { author := c4actor, createdAt := 5, number := 2,
              title := "second issue", url := "ui2" }

/-- Discussion created at time 5 (single discussion page). -/
def c4discNode5 : Node :=
  .issueoid { author := c4actor, createdAt := 5, number := 3,
              title := "a discussion", url := "ud1" }

/-- First round trip: issues page 1 (more to come), discussions page 1
(exhausted). -/
def c4resp1 : Response := fun it =>
  match it with
  | .issue => { endCursor := some ("ci1"), hasNextPage := true,
                nodes := [c4issueNode1] }
  | .discussion => { endCursor := some ("cd1"), hasNextPage := false,
                     nodes := [c4discNode5] }
  | _ => nullConnResponse

/-- Second round trip: issues page 2 (exhausted), discussions empty. -/
def c4resp2 : Response := fun it =>
  match it with
  | .issue => { endCursor := some ("ci2"), hasNextPage := false,
                nodes := [c4issueNode5] }
  | _ => nullConnResponse

/-- Prior snapshot: the repository is known with cursors for both kinds. -/
def c4state : State :=
  { old_state :=
      [("id:viewer/repo",
        { repo := sampleRepo,
          cursors := [(ActivityType.issue, some ("ci0")),
                      (ActivityType.discussion, some ("cd0"))] })] }

/-- The run's single repository visit. -/
def c4visit : RepoVisit :=
  { repo := sampleRepo, prefs := c4prefs, responses := [c4resp1, c4resp2],
    now := 1000 }

/-- The issue event of time 1. -/
def c4evIssue1 : Event :=
  .activity (.issue 1 sampleRepo
    { number := 1, title := "first issue", author := c4actor.toUser,
      url := "ui1" })

/-- The issue event of time 5 (arrives in round trip 2). -/
def c4evIssue5 : Event :=
  .activity (.issue 5 sampleRepo
    { number := 2, title := "second issue", author := c4actor.toUser,
      url := "ui2" })

/-- The discussion event of time 5 (arrives in round trip 1). -/
def c4evDisc5 : Event :=
  .activity (.discussion 5 sampleRepo
    { number := 3, title := "a discussion", author := c4actor.toUser,
      url := "ud1" })

/-- Whether a lifecycle event carries the given repository id (Renamed also
carries the old repository). -/
def Event.isLifecycleOf (rid : String) : Event → Bool
  | .tracked _ repo => repo.id == rid
  | .untracked _ repo => repo.id == rid
  | .renamed _ repo old => repo.id == rid || old.id == rid
  | .activity _ => false

/-- The old snapshot is well formed: unique keys, each entry stored under its
repository's id (the shape `State.from_file` loads and `set_cursors`
writes). -/
def stateWF (st : State) : Prop :=
  (st.old_state.map Prod.fst).Nodup ∧ ∀ p ∈ st.old_state, p.2.repo.id = p.1

/-- The repository's previous identity (same id, old full name). -/
def c7oldRepo : Repository :=
  { id := "id:viewer/repo", owner := sampleUser, name := "oldname",
    nameWithOwner := "viewer/oldname",
    url := "https://github.com/viewer/oldname", descriptionHTML := "" }

/-- Prior snapshot holding the repository under its old name. -/
def c7state : State :=
  { old_state := [("id:viewer/repo", { repo := c7oldRepo, cursors := [] })] }

/-- The run's visit of the renamed repository. -/
def c7visit : RepoVisit :=
  { repo := sampleRepo, prefs := { }, responses := [nullResponse], now := 50 }

/-! ### Dictionary lemmas -/

theorem dlookup_dset_self [DecidableEq α] (d : Dict α β) (k : α) (v : β) :
    dlookup (dset d k v) k = some v := by
  induction d with
  | nil => simp [dset, dlookup]
  | cons p ps ih =>
    by_cases h : p.1 = k
    · simp [dset, h, dlookup]
    · simp [dset, h, dlookup, ih]

theorem dlookup_dset_ne [DecidableEq α] (d : Dict α β) {k k' : α} (v : β)
    (h : k' ≠ k) : dlookup (dset d k v) k' = dlookup d k' := by
  have hkk : ¬k = k' := fun he => h he.symm
  induction d with
  | nil => simp [dset, dlookup, hkk]
  | cons p ps ih =>
    by_cases hp : p.1 = k
    · subst hp
      simp [dset, dlookup, hkk]
    · simp [dset, hp, dlookup, ih]

theorem dmem_dset_self [DecidableEq α] (d : Dict α β) (k : α) (v : β) :
    dmem (dset d k v) k = true := by
  simp [dmem, dlookup_dset_self]

theorem dmem_dset_ne [DecidableEq α] (d : Dict α β) {k k' : α} (v : β)
    (h : k' ≠ k) : dmem (dset d k v) k' = dmem d k' := by
  simp [dmem, dlookup_dset_ne d v h]

theorem dlookup_derase_ne [DecidableEq α] (d : Dict α β) {k k' : α}
    (h : k' ≠ k) : dlookup (derase d k) k' = dlookup d k' := by
  have hkk : ¬k = k' := fun he => h he.symm
  induction d with
  | nil => simp [derase]
  | cons p ps ih =>
    by_cases hp : p.1 = k
    · subst hp
      simp [derase, dlookup, hkk]
    · simp [derase, hp, dlookup, ih]

theorem dlookup_eq_none_of_not_mem_keys [DecidableEq α] (d : Dict α β) (k : α)
    (h : k ∉ d.map Prod.fst) : dlookup d k = none := by
  induction d with
  | nil => rfl
  | cons p ps ih =>
    simp only [List.map_cons, List.mem_cons, not_or] at h
    have hp : ¬p.1 = k := by
      intro he
      exact h.1 he.symm
    simp only [dlookup, if_neg hp]
    exact ih h.2

theorem dlookup_derase_self [DecidableEq α] (d : Dict α β) (k : α)
    (hd : (d.map Prod.fst).Nodup) : dlookup (derase d k) k = none := by
  induction d with
  | nil => rfl
  | cons p ps ih =>
    simp only [List.map_cons, List.nodup_cons] at hd
    by_cases hp : p.1 = k
    · subst hp
      simp only [derase, if_pos rfl]
      exact dlookup_eq_none_of_not_mem_keys ps p.1 hd.1
    · simp only [derase, if_neg hp, dlookup, if_neg hp]
      exact ih hd.2

/-! ### `parse_response` characterization lemmas -/

/-- Congruence for `List.any` under pointwise equality on the list. -/
theorem list_any_congr {α : Type} {l : List α} {p q : α → Bool}
    (h : ∀ x ∈ l, p x = q x) : l.any p = l.any q := by
  induction l with
  | nil => rfl
  | cons a as ih =>
    simp only [List.any_cons]
    rw [h a (by simp), ih (fun x hx => h x (by simp [hx]))]

/-- The cursor dict after a `parseResponseGo` pass is untouched at kinds not
mentioned in the processed kind list. -/
theorem parseResponseGo_lookup_not_mem (repo : Repository) (data : Response)
    (ts : List ActivityType) (acc : List RepoActivity × Bool × CursorDict)
    (it : ActivityType) (h : it ∉ ts) :
    dlookup (parseResponseGo repo data ts acc).2.2 it = dlookup acc.2.2 it := by
  induction ts generalizing acc with
  | nil => rfl
  | cons hd rest ih =>
    have hne : it ≠ hd := fun he => h (he ▸ List.mem_cons_self hd rest)
    have hrest : it ∉ rest := fun hm => h (List.mem_cons_of_mem hd hm)
    obtain ⟨events, hnp, cursors⟩ := acc
    simp only [parseResponseGo]
    by_cases hmem : dmem cursors hd
    · rw [if_pos hmem, ih _ hrest]
      cases hc : (data hd).endCursor with
      | none => rfl
      | some c => exact dlookup_dset_ne _ _ hne
    · rw [if_neg hmem, ih _ hrest]
      exact dlookup_dset_ne _ _ hne

/-- Per-kind cursor outcome of one `parse_response` round (`qmanager.py`
lines 174-196), for a kind list without duplicates:
  * forward mode (entry present): a non-null end-cursor replaces the entry, a
    null one leaves it exactly unchanged;
  * bootstrap mode (entry absent): the end-cursor, null or not, is stored as
    the kind's entry. -/
theorem parseResponseGo_lookup (repo : Repository) (data : Response)
    (ts : List ActivityType) (events : List RepoActivity) (hnp : Bool)
    (cursors : CursorDict) (it : ActivityType) (hnd : ts.Nodup)
    (hmem : it ∈ ts) :
    dlookup (parseResponseGo repo data ts (events, hnp, cursors)).2.2 it =
      if dmem cursors it then
        match (data it).endCursor with
        | some c => some (some c)
        | none => dlookup cursors it
      else some ((data it).endCursor) := by
  induction ts generalizing events hnp cursors with
  | nil => cases hmem
  | cons hd rest ih =>
    rcases List.mem_cons.mp hmem with he | hm
    · subst he
      have hrest : it ∉ rest := (List.nodup_cons.mp hnd).1
      simp only [parseResponseGo]
      by_cases hc : dmem cursors it
      · rw [if_pos hc, if_pos hc,
           parseResponseGo_lookup_not_mem repo data rest _ it hrest]
        cases hec : (data it).endCursor with
        | none => rfl
        | some c => exact dlookup_dset_self _ _ _
      · rw [if_neg hc, if_neg hc,
           parseResponseGo_lookup_not_mem repo data rest _ it hrest]
        exact dlookup_dset_self _ _ _
    · have hne : it ≠ hd := fun he => (List.nodup_cons.mp hnd).1 (he ▸ hm)
      have hnd' := (List.nodup_cons.mp hnd).2
      simp only [parseResponseGo]
      by_cases hc : dmem cursors hd
      · rw [if_pos hc, ih _ _ _ hnd' hm]
        cases hec : (data hd).endCursor with
        | none => rfl
        | some c => rw [dmem_dset_ne _ _ hne, dlookup_dset_ne _ _ hne]
      · rw [if_neg hc, ih _ _ _ hnd' hm, dmem_dset_ne _ _ hne,
           dlookup_dset_ne _ _ hne]

/-- The events of one `parse_response` round are the per-kind contributions
concatenated in kind order (`qmanager.py` lines 174-196), for a
duplicate-free kind list. -/
theorem parseResponseGo_events (repo : Repository) (data : Response)
    (ts : List ActivityType) (events : List RepoActivity) (hnp : Bool)
    (cursors : CursorDict) (hnd : ts.Nodup) :
    (parseResponseGo repo data ts (events, hnp, cursors)).1 =
      events ++ (ts.map (kindEvents data repo cursors)).flatten := by
  induction ts generalizing events hnp cursors with
  | nil => simp [parseResponseGo]
  | cons hd rest ih =>
    have hrest : hd ∉ rest := (List.nodup_cons.mp hnd).1
    have hnd' := (List.nodup_cons.mp hnd).2
    have hxne : ∀ x ∈ rest, x ≠ hd := fun x hx he => hrest (he ▸ hx)
    have hmap : ∀ cursors' : CursorDict,
        (∀ x ∈ rest, dmem cursors' x = dmem cursors x) →
        rest.map (kindEvents data repo cursors') =
          rest.map (kindEvents data repo cursors) := by
      intro cursors' hsame
      apply List.map_congr_left
      intro x hx
      simp [kindEvents, hsame x hx]
    simp only [parseResponseGo]
    by_cases hc : dmem cursors hd
    · rw [if_pos hc]
      cases hec : (data hd).endCursor with
      | none =>
        rw [ih _ _ _ hnd']
        simp [kindEvents, hc]
      | some c =>
        rw [ih _ _ _ hnd',
            hmap _ (fun x hx => dmem_dset_ne _ _ (hxne x hx))]
        simp [kindEvents, hc]
    · rw [if_neg hc, ih _ _ _ hnd',
          hmap _ (fun x hx => dmem_dset_ne _ _ (hxne x hx))]
      simp [kindEvents, hc]

/-- The session `has_next_page` flag after one `parse_response` round: raised
exactly when some forward-mode kind's page reports more (`qmanager.py` lines
176-183), for a duplicate-free kind list. -/
theorem parseResponseGo_hnp (repo : Repository) (data : Response)
    (ts : List ActivityType) (events : List RepoActivity) (hnp : Bool)
    (cursors : CursorDict) (hnd : ts.Nodup) :
    (parseResponseGo repo data ts (events, hnp, cursors)).2.1 =
      (hnp || ts.any (fun it => dmem cursors it && (data it).hasNextPage)) := by
  induction ts generalizing events hnp cursors with
  | nil => simp [parseResponseGo]
  | cons hd rest ih =>
    have hrest : hd ∉ rest := (List.nodup_cons.mp hnd).1
    have hnd' := (List.nodup_cons.mp hnd).2
    have hxne : ∀ x ∈ rest, x ≠ hd := fun x hx he => hrest (he ▸ hx)
    have hany : ∀ cursors' : CursorDict,
        (∀ x ∈ rest, dmem cursors' x = dmem cursors x) →
        rest.any (fun it => dmem cursors' it && (data it).hasNextPage) =
          rest.any (fun it => dmem cursors it && (data it).hasNextPage) := by
      intro cursors' hsame
      apply list_any_congr
      intro x hx
      rw [hsame x hx]
    simp only [parseResponseGo]
    by_cases hc : dmem cursors hd
    · rw [if_pos hc]
      cases hec : (data hd).endCursor with
      | none =>
        rw [ih _ _ _ hnd']
        simp [hc, Bool.or_assoc]
      | some c =>
        rw [ih _ _ _ hnd',
            hany _ (fun x hx => dmem_dset_ne _ _ (hxne x hx))]
        simp [hc, Bool.or_assoc]
    · rw [if_neg hc, ih _ _ _ hnd',
          hany _ (fun x hx => dmem_dset_ne _ _ (hxne x hx))]
      simp [hc]

/-! ### `make_query` characterization lemmas -/

/-- The connections composed by `make_query`: each kind contributes its
forward `CONNECTION` when its cursor entry exists and its bootstrap
`LAST_CONNECTION` otherwise (`qmanager.py` lines 154-162). -/
theorem makeQueryGo_connections (cursors : CursorDict) (ts : List ActivityType)
    (acc : Dict String String × Dict String JValue × List GField) :
    (makeQueryGo cursors ts acc).2.2 =
      acc.2.2 ++ ts.map (fun it =>
        if dmem cursors it then it.CONNECTION else it.LAST_CONNECTION) := by
  induction ts generalizing acc with
  | nil => simp [makeQueryGo]
  | cons hd rest ih =>
    obtain ⟨defs, vars, conns⟩ := acc
    simp only [makeQueryGo]
    by_cases hc : dmem cursors hd
    · rw [if_pos hc, ih]
      simp [hc]
    · rw [if_neg hc, ih]
      simp [hc]

/-- Distinct kinds use distinct cursor variable names. -/
theorem cursor_var_inj :
    ∀ a b : ActivityType,
      a.api_name ++ "_cursor" = b.api_name ++ "_cursor" → a = b := by
  intro a b
  cases a <;> cases b <;> decide

/-- No kind's cursor variable name collides with `page_size`. -/
theorem cursor_var_ne_page_size :
    ∀ a : ActivityType, ¬a.api_name ++ "_cursor" = "page_size" := by
  intro a
  cases a <;> decide

/-- The variable bag after a `makeQueryGo` pass is untouched at the cursor
variables of kinds not mentioned in the processed kind list. -/
theorem makeQueryGo_vars_lookup_not_mem (cursors : CursorDict)
    (ts : List ActivityType)
    (acc : Dict String String × Dict String JValue × List GField)
    (it : ActivityType) (h : it ∉ ts) :
    dlookup (makeQueryGo cursors ts acc).2.1 (it.api_name ++ "_cursor") =
      dlookup acc.2.1 (it.api_name ++ "_cursor") := by
  induction ts generalizing acc with
  | nil => rfl
  | cons hd rest ih =>
    have hne : it ≠ hd := fun he => h (he ▸ List.mem_cons_self hd rest)
    have hrest : it ∉ rest := fun hm => h (List.mem_cons_of_mem hd hm)
    obtain ⟨defs, vars, conns⟩ := acc
    simp only [makeQueryGo]
    by_cases hc : dmem cursors hd
    · rw [if_pos hc, ih _ hrest]
      rw [dlookup_dset_ne _ _ (fun he => hne (cursor_var_inj it hd he)),
        dlookup_dset_ne _ _ (cursor_var_ne_page_size it)]
    · rw [if_neg hc, ih _ hrest]

/-- The cursor variable `make_query` sends for a forward-mode kind is exactly
the kind's stored cursor value (`qmanager.py` lines 159-160) — in particular
a stored null entry is sent as a null `after` cursor. -/
theorem makeQueryGo_vars_lookup (cursors : CursorDict) (ts : List ActivityType)
    (acc : Dict String String × Dict String JValue × List GField)
    (it : ActivityType) (hnd : ts.Nodup) (hmem : it ∈ ts)
    (hc : dmem cursors it = true) :
    dlookup (makeQueryGo cursors ts acc).2.1 (it.api_name ++ "_cursor") =
      some (JValue.ofCursor ((dlookup cursors it).getD none)) := by
  induction ts generalizing acc with
  | nil => cases hmem
  | cons hd rest ih =>
    rcases List.mem_cons.mp hmem with he | hm
    · subst he
      have hrest : it ∉ rest := (List.nodup_cons.mp hnd).1
      obtain ⟨defs, vars, conns⟩ := acc
      simp only [makeQueryGo]
      rw [if_pos hc,
        makeQueryGo_vars_lookup_not_mem cursors rest _ it hrest]
      exact dlookup_dset_self _ _ _
    · obtain ⟨defs, vars, conns⟩ := acc
      simp only [makeQueryGo]
      by_cases hchd : dmem cursors hd
      · rw [if_pos hchd]
        exact ih _ (List.nodup_cons.mp hnd).2 hm
      · rw [if_neg hchd]
        exact ih _ (List.nodup_cons.mp hnd).2 hm

/-- Every kind's `LAST_CONNECTION` is a 1-item last-page query requesting
only the latest item's end-cursor (`qlobjs.py`). -/
theorem last_connection_shape :
    ∀ it : ActivityType, isLastPageConn it.LAST_CONNECTION = true := by
  intro it
  cases it <;> rfl

/-- No kind's forward `CONNECTION` is a last-page query (`qlobjs.py`). -/
theorem forward_connection_shape :
    ∀ it : ActivityType, isLastPageConn it.CONNECTION = false := by
  intro it
  cases it <;> rfl

/-! ### `parse_response` wrapper lemmas -/

theorem parse_response_types_eq (aq : ActivityQuery) (r : Response) :
    (aq.parse_response r).2.types = aq.types := rfl

theorem parse_response_repo_eq (aq : ActivityQuery) (r : Response) :
    (aq.parse_response r).2.repo = aq.repo := rfl

/-- The events of one `parse_response` round. -/
theorem parse_response_events (aq : ActivityQuery) (r : Response)
    (hnd : aq.types.Nodup) :
    (aq.parse_response r).1 =
      (aq.types.map (kindEvents r aq.repo aq.cursors)).flatten := by
  have h : (aq.parse_response r).1 =
      (parseResponseGo aq.repo r aq.types ([], false, aq.cursors)).1 := rfl
  rw [h, parseResponseGo_events _ _ _ _ _ _ hnd]
  rfl

/-- The session flag after one `parse_response` round. -/
theorem parse_response_hnp (aq : ActivityQuery) (r : Response)
    (hnd : aq.types.Nodup) :
    (aq.parse_response r).2.has_next_page =
      aq.types.any (fun it => dmem aq.cursors it && (r it).hasNextPage) := by
  have h : (aq.parse_response r).2.has_next_page =
      (parseResponseGo aq.repo r aq.types ([], false, aq.cursors)).2.1 := rfl
  rw [h, parseResponseGo_hnp _ _ _ _ _ _ hnd]
  rfl

/-- The per-kind cursor outcome of one `parse_response` round. -/
theorem parse_response_cursor_lookup (aq : ActivityQuery) (r : Response)
    (it : ActivityType) (hnd : aq.types.Nodup) (hmem : it ∈ aq.types) :
    dlookup (aq.parse_response r).2.cursors it =
      if dmem aq.cursors it then
        match (r it).endCursor with
        | some c => some (some c)
        | none => dlookup aq.cursors it
      else some ((r it).endCursor) := by
  have h : (aq.parse_response r).2.cursors =
      (parseResponseGo aq.repo r aq.types ([], false, aq.cursors)).2.2 := rfl
  rw [h, parseResponseGo_lookup _ _ _ _ _ _ _ hnd hmem]

/-- An exhausted session performs no further round trips. -/
theorem paginate_not_hnp (aq : ActivityQuery) (rs : List Response)
    (h : aq.has_next_page = false) : Client.paginate aq rs = ([], aq) := by
  cases rs with
  | nil => rfl
  | cons r rest =>
    simp only [Client.paginate, h]
    rfl

/-! ### Single-kind pagination (for the spec's pagination-completeness
property) -/

/-- One `parse_response` round of a single-kind forward session. -/
theorem parse_response_single (repo : Repository) (it : ActivityType)
    (cursors : CursorDict) (hnp0 : Bool) (p : ConnResponse)
    (hfwd : dmem cursors it = true) :
    ActivityQuery.parse_response
        { repo := repo, types := [it], cursors := cursors,
          has_next_page := hnp0 } (singleKindResponse p) =
      (p.nodes.filterMap (from_node it repo),
       { repo := repo, types := [it], cursors := advanceCursor it cursors p,
         has_next_page := p.hasNextPage }) := by
  simp only [ActivityQuery.parse_response, parseResponseGo, singleKindResponse,
    advanceCursor, hfwd, if_true, Bool.false_or, List.nil_append]

/-- A forward-mode page keeps the kind's cursor entry present. -/
theorem advanceCursor_dmem (it : ActivityType) (c : CursorDict)
    (p : ConnResponse) (h : dmem c it = true) :
    dmem (advanceCursor it c p) it = true := by
  cases hec : p.endCursor with
  | none => simpa [advanceCursor, hec] using h
  | some x => simp [advanceCursor, hec, dmem_dset_self]

/-- After folding a page sequence whose last page has a non-null end-cursor,
the kind's stored cursor equals that final end-cursor. -/
theorem foldl_advanceCursor_lookup (it : ActivityType) :
    ∀ (pages : List ConnResponse) (c : CursorDict) (hne : pages ≠ [])
      (clast : Cursor),
      (pages.getLast hne).endCursor = some clast →
      dlookup (pages.foldl (advanceCursor it) c) it = some (some clast)
  | [], _, hne, _, _ => absurd rfl hne
  | [p], c, _, clast, h => by
    simp only [List.getLast_singleton] at h
    simp [advanceCursor, h, dlookup_dset_self]
  | p :: q :: rest, c, _, clast, h => by
    simp only [List.getLast_cons_cons] at h
    simpa using
      foldl_advanceCursor_lookup it (q :: rest) (advanceCursor it c p)
        (by simp) clast h

/-- Unfolding of one round trip of a live session. -/
theorem paginate_cons_true (repo : Repository) (tys : List ActivityType)
    (cursors : CursorDict) (r : Response) (rs : List Response) :
    Client.paginate
        { repo := repo, types := tys, cursors := cursors,
          has_next_page := true } (r :: rs) =
      (((ActivityQuery.mk repo tys cursors true).parse_response r).1 ++
          (Client.paginate
            ((ActivityQuery.mk repo tys cursors true).parse_response r).2
            rs).1,
       (Client.paginate
          ((ActivityQuery.mk repo tys cursors true).parse_response r).2
          rs).2) := by
  simp [Client.paginate]

/-- Pagination of a single forward-mode kind over `N` pages, where every page
but the last reports more and the last reports no more: the session consumes
exactly the `N` pages, returns their parsed events concatenated in page
order, ends exhausted, and folds the cursor updates in page order. -/
theorem paginate_single_kind (repo : Repository) (it : ActivityType) :
    ∀ (pages : List ConnResponse) (cursors : CursorDict),
      dmem cursors it = true →
      (∀ p ∈ pages.dropLast, p.hasNextPage = true) →
      (∀ hne : pages ≠ [], (pages.getLast hne).hasNextPage = false) →
      pages ≠ [] →
      Client.paginate
          { repo := repo, types := [it], cursors := cursors,
            has_next_page := true }
          (pages.map singleKindResponse) =
        ((pages.map (fun p => p.nodes.filterMap (from_node it repo))).flatten,
         { repo := repo, types := [it],
           cursors := pages.foldl (advanceCursor it) cursors,
           has_next_page := false })
  | [], _, _, _, _, hne => absurd rfl hne
  | [p], cursors, hfwd, _, hlast, _ => by
    have hpl : p.hasNextPage = false := by
      simpa using hlast (by simp)
    rw [List.map_cons, List.map_nil, paginate_cons_true,
      parse_response_single repo it cursors true p hfwd]
    dsimp only
    rw [hpl]
    rw [paginate_not_hnp _ _ (by exact rfl)]
    simp [hpl]
  | p :: q :: rest, cursors, hfwd, hflow, hlast, _ => by
    have hpl : p.hasNextPage = true := by
      apply hflow
      rw [List.dropLast_cons₂]
      exact List.mem_cons_self _ _
    have ihres :=
      paginate_single_kind repo it (q :: rest) (advanceCursor it cursors p)
        (advanceCursor_dmem it cursors p hfwd)
        (fun x hx => hflow x
          (by rw [List.dropLast_cons₂]; exact List.mem_cons_of_mem _ hx))
        (fun hne => by
          simpa [List.getLast_cons_cons] using hlast (by simp))
        (by simp)
    rw [List.map_cons, paginate_cons_true,
      parse_response_single repo it cursors true p hfwd]
    dsimp only
    rw [hpl, ihres]
    simp

/-- A parsed event's timestamp is its node's creation-order key. -/
theorem from_node_timestamp (it : ActivityType) (repo : Repository) (n : Node)
    (ev : RepoActivity) (h : from_node it repo n = some ev) :
    ev.timestamp = n.sortKey := by
  cases it with
  | issue =>
    cases n <;> simp [from_node] at h
    subst h
    rfl
  | pr =>
    cases n <;> simp [from_node] at h
    subst h
    rfl
  | discussion =>
    cases n <;> simp [from_node] at h
    subst h
    rfl
  | release =>
    cases n <;> simp [from_node] at h
    subst h
    rfl
  | star =>
    cases n <;> simp [from_node] at h
    subst h
    rfl
  | fork =>
    cases n <;> simp [from_node] at h
    subst h
    rfl
  | tag =>
    cases n with
    | issueoid n => simp [from_node] at h
    | release n => simp [from_node] at h
    | star n => simp [from_node] at h
    | fork n => simp [from_node] at h
    | tagNode n =>
      obtain ⟨nm, tgt⟩ := n
      cases tgt with
      | commit cd author =>
        cases cd with
        | none => simp [from_node, tagFromNode] at h
        | some ts =>
          simp [from_node, tagFromNode] at h
          subst h
          rfl
      | annotated tg =>
        cases tg with
        | none => simp [from_node, tagFromNode] at h
        | some t =>
          cases hdate : t.date with
          | none => simp [from_node, tagFromNode, hdate] at h
          | some ts =>
            simp [from_node, tagFromNode, hdate] at h
            subst h
            simp [RepoActivity.timestamp, Node.sortKey, hdate]
      | other => simp [from_node, tagFromNode] at h

/-- The connections a session's query composes: forward `CONNECTION` for
kinds with a cursor entry, bootstrap `LAST_CONNECTION` for the rest. -/
theorem query_connections_eq (aq : ActivityQuery) :
    aq.query_connections = aq.types.map (fun t =>
      if dmem aq.cursors t then t.CONNECTION else t.LAST_CONNECTION) := by
  rw [ActivityQuery.query_connections, makeQueryGo_connections]
  rfl

/-- `get_new_repo_activity` projected through the pagination loop. -/
theorem get_new_repo_activity_eq (repo : Repository) (types : List ActivityType)
    (cursors : CursorDict) (responses : List Response) :
    Client.get_new_repo_activity repo types cursors responses =
      ((Client.paginate (ActivityQuery.mk repo types cursors true) responses).1,
       (Client.paginate (ActivityQuery.mk repo types cursors true)
          responses).2.cursors) := rfl

/-! ### Concrete sample data (used by the claim witnesses) -/

/-! ### Claim theorems -/

/-- C3: Cursor-advance invariant — for every forward-mode page response, the
stored cursor of an activity kind changes only when the response's end-cursor
is non-null; a null end-cursor leaves the previously stored cursor value for
that kind exactly unchanged. -/
theorem cursor_advance_invariant (aq : ActivityQuery) (r : Response)
    (it : ActivityType) (hnd : aq.types.Nodup) (hmem : it ∈ aq.types)
    (hfwd : dmem aq.cursors it = true) :
    ((r it).endCursor = none →
      dlookup (aq.parse_response r).2.cursors it = dlookup aq.cursors it)
    ∧ (dlookup (aq.parse_response r).2.cursors it ≠ dlookup aq.cursors it →
      (r it).endCursor ≠ none) := by
  have hbase := parse_response_cursor_lookup aq r it hnd hmem
  rw [if_pos hfwd] at hbase
  constructor
  · intro hec
    rw [hbase, hec]
  · intro hch hec
    apply hch
    rw [hbase, hec]

/-- C3 witness: a pull-request page with a null end-cursor leaves the stored
pull-request cursor unchanged. -/
theorem cursor_advance_invariant_witness :
    dlookup (sampleFwdAQ.parse_response nullResponse).2.cursors
        ActivityType.pr =
      dlookup sampleFwdAQ.cursors ActivityType.pr :=
  (cursor_advance_invariant sampleFwdAQ nullResponse ActivityType.pr
    (by decide) (by decide) (by decide)).1 (by decide)

/-- C1 counterexample: the claim quantifies over kinds "whose cursor is
null/unknown", but the code distinguishes the two.  For the concrete
(repository, discussion) pair whose stored cursor entry is present with a
null value, a single sync call composes the kind's forward connection — not
a 1-item last-page query — and emits an event rather than zero events. -/
theorem bootstrap_null_cursor_counterexample :
    dlookup discNullCursorAQ.cursors ActivityType.discussion = some none
    ∧ (Client.get_new_repo_activity sampleRepo [ActivityType.discussion]
        [(ActivityType.discussion, none)] [discPageResponse]).1 ≠ []
    ∧ discNullCursorAQ.query_connections = [ActivityType.discussion.CONNECTION]
    ∧ isLastPageConn ActivityType.discussion.CONNECTION = false := by
  refine ⟨rfl, ?_, rfl, rfl⟩
  decide

/-- C1 (amended): for a repository none of whose active kinds has a stored
cursor entry (the newly-tracked case; an entry that is present but null is
instead queried in forward mode), a single sync call composes only each
kind's 1-item last-page connection, emits zero events, and sets each kind's
cursor entry to the returned end-cursor (possibly null). -/
theorem bootstrap_rule_unknown_cursor (repo : Repository)
    (types : List ActivityType) (cursors : CursorDict) (r : Response)
    (rs : List Response) (hnd : types.Nodup)
    (hboot : ∀ it ∈ types, dmem cursors it = false) :
    ActivityQuery.query_connections
        { repo := repo, types := types, cursors := cursors }
      = types.map ActivityType.LAST_CONNECTION
    ∧ (∀ it : ActivityType, isLastPageConn it.LAST_CONNECTION = true)
    ∧ (Client.get_new_repo_activity repo types cursors (r :: rs)).1 = []
    ∧ (∀ it ∈ types,
        dlookup (Client.get_new_repo_activity repo types cursors (r :: rs)).2
            it
          = some ((r it).endCursor)) := by
  have hconn : ActivityQuery.query_connections
      { repo := repo, types := types, cursors := cursors }
      = types.map ActivityType.LAST_CONNECTION := by
    rw [query_connections_eq]
    apply List.map_congr_left
    intro it hit
    have hb := hboot it hit
    simp [hb]
  have hpe : ((ActivityQuery.mk repo types cursors true).parse_response r).1
      = [] := by
    rw [parse_response_events _ _ hnd]
    apply List.flatten_eq_nil_iff.mpr
    intro l hl
    rcases List.mem_map.mp hl with ⟨it, hit, rfl⟩
    simp [kindEvents, hboot it hit]
  have hph : ((ActivityQuery.mk repo types cursors
      true).parse_response r).2.has_next_page = false := by
    rw [parse_response_hnp _ _ hnd]
    apply List.any_eq_false.mpr
    intro it hit
    simp [hboot it hit]
  have hsync1 : (Client.paginate (ActivityQuery.mk repo types cursors true)
      (r :: rs)).1
      = ((ActivityQuery.mk repo types cursors true).parse_response r).1 := by
    rw [paginate_cons_true, paginate_not_hnp _ _ hph]
    simp
  have hsync2 : (Client.paginate (ActivityQuery.mk repo types cursors true)
      (r :: rs)).2
      = ((ActivityQuery.mk repo types cursors true).parse_response r).2 := by
    rw [paginate_cons_true, paginate_not_hnp _ _ hph]
  refine ⟨hconn, last_connection_shape, ?_, ?_⟩
  · rw [get_new_repo_activity_eq]
    rw [show (((Client.paginate (ActivityQuery.mk repo types cursors true)
        (r :: rs)).1,
        (Client.paginate (ActivityQuery.mk repo types cursors true)
          (r :: rs)).2.cursors)).1
      = (Client.paginate (ActivityQuery.mk repo types cursors true)
          (r :: rs)).1 from rfl]
    rw [hsync1]
    exact hpe
  · intro it hit
    rw [get_new_repo_activity_eq]
    rw [show (((Client.paginate (ActivityQuery.mk repo types cursors true)
        (r :: rs)).1,
        (Client.paginate (ActivityQuery.mk repo types cursors true)
          (r :: rs)).2.cursors)).2
      = (Client.paginate (ActivityQuery.mk repo types cursors true)
          (r :: rs)).2.cursors from rfl]
    rw [hsync2]
    rw [parse_response_cursor_lookup _ _ _ hnd hit]
    rw [if_neg (by simp [hboot it hit])]

/-- C1 witness: bootstrapping the star kind of a freshly tracked repository
returns zero events and stores the latest-item end-cursor. -/
theorem bootstrap_rule_unknown_cursor_witness :
    (Client.get_new_repo_activity sampleRepo [ActivityType.star] []
        [starBootResponse]).1 = []
    ∧ dlookup (Client.get_new_repo_activity sampleRepo [ActivityType.star] []
        [starBootResponse]).2 ActivityType.star
      = some (some ("sc")) := by
  have h := bootstrap_rule_unknown_cursor sampleRepo [ActivityType.star] []
    starBootResponse [] (by decide) (by decide)
  exact ⟨h.2.2.1, h.2.2.2 ActivityType.star (by decide)⟩

/-- C10: after a bootstrap that returns a null end-cursor, the kind's cursor
is stored as an explicit null-valued entry (not left absent); any later
session that sees such an entry queries the kind in forward-pagination mode
(its forward connection, with a null `after` cursor variable, i.e. from the
beginning of history) and returns that page's parsed events instead of
re-bootstrapping the kind with zero events. -/
theorem null_cursor_entry_behavior (aq : ActivityQuery) (r : Response)
    (it : ActivityType) (hnd : aq.types.Nodup) (hmem : it ∈ aq.types)
    (hboot : dmem aq.cursors it = false) (hnull : (r it).endCursor = none) :
    dlookup (aq.parse_response r).2.cursors it = some none
    ∧ dmem (aq.parse_response r).2.cursors it = true
    ∧ (∀ (aq' : ActivityQuery) (r' : Response),
        aq'.types.Nodup → it ∈ aq'.types →
        dlookup aq'.cursors it = some none →
        dmem aq'.cursors it = true
        ∧ aq'.query_connections = aq'.types.map (fun t =>
            if dmem aq'.cursors t then t.CONNECTION else t.LAST_CONNECTION)
        ∧ dlookup (aq'.make_query).2 (it.api_name ++ "_cursor")
            = some JValue.null
        ∧ (aq'.parse_response r').1 =
            (aq'.types.map (kindEvents r' aq'.repo aq'.cursors)).flatten
        ∧ kindEvents r' aq'.repo aq'.cursors it =
            (r' it).nodes.filterMap (from_node it aq'.repo)) := by
  have h1 : dlookup (aq.parse_response r).2.cursors it = some none := by
    rw [parse_response_cursor_lookup _ _ _ hnd hmem,
      if_neg (by simp [hboot]), hnull]
  refine ⟨h1, by simp [dmem, h1], ?_⟩
  intro aq' r' hnd' hmem' hl
  have hdm : dmem aq'.cursors it = true := by
    simp [dmem, hl]
  refine ⟨hdm, query_connections_eq aq', ?_, parse_response_events aq' r' hnd',
    by simp [kindEvents, hdm]⟩
  have hmk : (aq'.make_query).2 =
      (makeQueryGo aq'.cursors aq'.types
        ([("$repo_id", "ID!")], [("repo_id", .s aq'.repo.id)], [])).2.1 := rfl
  rw [hmk, makeQueryGo_vars_lookup aq'.cursors aq'.types _ it hnd' hmem' hdm,
    hl]
  rfl

/-- C10 witness: a discussion bootstrap over empty history stores an explicit
null entry, and the follow-up session sends the forward query with a null
`after` cursor. -/
theorem null_cursor_entry_behavior_witness :
    dlookup (bootAQdisc.parse_response nullResponse).2.cursors
        ActivityType.discussion = some none
    ∧ dlookup (discNullCursorAQ.make_query).2 ("discussions_cursor")
      = some JValue.null := by
  have h := null_cursor_entry_behavior bootAQdisc nullResponse
    ActivityType.discussion (by decide) (by decide) (by decide) (by decide)
  exact ⟨h.1,
    (h.2.2 discNullCursorAQ nullResponse (by decide) (by decide)
      (by decide)).2.2.1⟩

/-- C2: Pagination completeness — for a kind with a known cursor whose
pending history spans the given pages (each page but the last reporting
more, the last reporting no more and carrying a non-null end-cursor), a
single sync call returns all pages' events concatenated in page order,
finishes with the session's has-next-page flag false, leaves the stored
cursor equal to the last page's end-cursor, and, when the server delivers
the nodes in creation order, the returned events are in creation-time
ascending order. -/
theorem pagination_completeness (repo : Repository) (it : ActivityType)
    (cursors : CursorDict) (pages : List ConnResponse) (clast : Cursor)
    (hfwd : dmem cursors it = true) (hne : pages ≠ [])
    (hflow : ∀ p ∈ pages.dropLast, p.hasNextPage = true)
    (hlast : (pages.getLast hne).hasNextPage = false)
    (hclast : (pages.getLast hne).endCursor = some clast) :
    (Client.get_new_repo_activity repo [it] cursors
        (pages.map singleKindResponse)).1 =
      (pages.map (fun p => p.nodes.filterMap (from_node it repo))).flatten
    ∧ (Client.paginate (ActivityQuery.mk repo [it] cursors true)
        (pages.map singleKindResponse)).2.has_next_page = false
    ∧ dlookup (Client.get_new_repo_activity repo [it] cursors
        (pages.map singleKindResponse)).2 it = some (some clast)
    ∧ (((pages.map (fun p => p.nodes)).flatten).Pairwise
          (fun a b => a.sortKey ≤ b.sortKey) →
        ((Client.get_new_repo_activity repo [it] cursors
            (pages.map singleKindResponse)).1).Pairwise
          (fun a b => a.timestamp ≤ b.timestamp)) := by
  have hps := paginate_single_kind repo it pages cursors hfwd hflow
    (fun _ => hlast) hne
  have h1 : (Client.get_new_repo_activity repo [it] cursors
      (pages.map singleKindResponse)).1 =
      (pages.map (fun p => p.nodes.filterMap (from_node it repo))).flatten := by
    rw [get_new_repo_activity_eq]
    rw [show (((Client.paginate (ActivityQuery.mk repo [it] cursors true)
        (pages.map singleKindResponse)).1,
        (Client.paginate (ActivityQuery.mk repo [it] cursors true)
          (pages.map singleKindResponse)).2.cursors)).1
      = (Client.paginate (ActivityQuery.mk repo [it] cursors true)
          (pages.map singleKindResponse)).1 from rfl]
    rw [hps]
  refine ⟨h1, by rw [hps], ?_, ?_⟩
  · rw [get_new_repo_activity_eq]
    rw [show (((Client.paginate (ActivityQuery.mk repo [it] cursors true)
        (pages.map singleKindResponse)).1,
        (Client.paginate (ActivityQuery.mk repo [it] cursors true)
          (pages.map singleKindResponse)).2.cursors)).2
      = (Client.paginate (ActivityQuery.mk repo [it] cursors true)
          (pages.map singleKindResponse)).2.cursors from rfl]
    rw [hps]
    exact foldl_advanceCursor_lookup it pages cursors hne clast hclast
  · intro hsorted
    rw [h1]
    have hfm : (pages.map
        (fun p => p.nodes.filterMap (from_node it repo))).flatten
        = ((pages.map (fun p => p.nodes)).flatten).filterMap
            (from_node it repo) := by
      rw [List.filterMap_flatten, List.map_map]
      rfl
    rw [hfm]
    apply List.Pairwise.filterMap (from_node it repo) ?_ hsorted
    intro a a' hle b hb b' hb'
    rw [from_node_timestamp it repo a b hb, from_node_timestamp it repo a' b' hb']
    exact hle

/-- C2 witness: the spec's example — a pull-request history of two pages (2
nodes then 1 node) is returned whole, in order, with the cursor left at the
second page's end-cursor. -/
theorem pagination_completeness_witness :
    (Client.get_new_repo_activity sampleRepo [ActivityType.pr]
        [(ActivityType.pr, some ("cursor:0001"))]
        ([prPage1, prPage2].map singleKindResponse)).1 =
      ([prPage1, prPage2].map
        (fun p => p.nodes.filterMap (from_node ActivityType.pr sampleRepo))).flatten
    ∧ dlookup (Client.get_new_repo_activity sampleRepo [ActivityType.pr]
        [(ActivityType.pr, some ("cursor:0001"))]
        ([prPage1, prPage2].map singleKindResponse)).2 ActivityType.pr
      = some (some ("cursor:0003")) := by
  have h := pagination_completeness sampleRepo ActivityType.pr
    [(ActivityType.pr, some ("cursor:0001"))] [prPage1, prPage2]
    ("cursor:0003") (by decide) (by decide) (by decide) (by decide)
    (by decide)
  exact ⟨h.1, h.2.2.1⟩

/-! ### Filtering-pipeline lemmas and claims C5, C6 -/

/-- The release-quality filter only removes events. -/
theorem mem_filterReleaseQuality (activity : ActivityPrefs)
    (evs : List RepoActivity) (ev : RepoActivity)
    (h : ev ∈ filterReleaseQuality activity evs) : ev ∈ evs := by
  unfold filterReleaseQuality at h
  split at h
  · exact (List.mem_filter.mp h).1
  · exact h

/-- The collision filter only removes or reorders events. -/
theorem mem_filterReleasedTags (activity : ActivityPrefs)
    (evs : List RepoActivity) (ev : RepoActivity)
    (h : ev ∈ filterReleasedTags activity evs) : ev ∈ evs := by
  unfold filterReleasedTags at h
  split at h
  · rcases List.mem_append.mp h with h1 | h1
    · exact (List.mem_filter.mp h1).1
    · exact (List.mem_filter.mp (List.mem_filter.mp h1).1).1
  · exact h

/-- C5: Tag/release collision filter — when Release and Tag are both active
and `released_tags` is false, a Tag event whose name equals the tag name of a
Release event retained in the same run's batch is suppressed, while a Tag
event matching no release of this batch is retained; with `released_tags`
true the filter is skipped entirely.  The filter sees only this run's batch,
so releases reported in prior runs never suppress a tag (the second
conjunct: no matching release in this batch means the tag is kept). -/
theorem tag_release_collision_filter (activity : ActivityPrefs)
    (evs : List RepoActivity) :
    ((activity.releases && activity.tags && !activity.released_tags) = true →
      ∀ (ts : Timestamp) (rp : Repository) (p : TagPayload),
        RepoActivity.tag ts rp p ∈ evs →
        (p.name ∈ releaseTagNames evs →
          RepoActivity.tag ts rp p ∉ filterReleasedTags activity evs)
        ∧ (p.name ∉ releaseTagNames evs →
          RepoActivity.tag ts rp p ∈ filterReleasedTags activity evs))
    ∧ (activity.released_tags = true → filterReleasedTags activity evs = evs)
    ∧ applyFilters activity evs =
        filterReleasedTags activity
          (filterReleaseQuality activity (filterMyActivity activity evs)) := by
  refine ⟨?_, ?_, rfl⟩
  · intro hcond ts rp p hmem
    constructor
    · intro hname hout
      rw [filterReleasedTags, if_pos hcond] at hout
      rcases List.mem_append.mp hout with h1 | h1
      · have := (List.mem_filter.mp h1).2
        simp [RepoActivity.isTagEvent] at this
      · have hkeep := (List.mem_filter.mp h1).2
        simp only [Bool.not_eq_true'] at hkeep
        have hc : (releaseTagNames evs).contains p.name = true :=
          List.elem_eq_true_of_mem hname
        rw [hc] at hkeep
        cases hkeep
    · intro hname
      rw [filterReleasedTags, if_pos hcond]
      apply List.mem_append.mpr
      right
      apply List.mem_filter.mpr
      refine ⟨List.mem_filter.mpr ⟨hmem, by simp [RepoActivity.isTagEvent]⟩, ?_⟩
      simp only [Bool.not_eq_true']
      cases hcc : (releaseTagNames evs).contains p.name with
      | false => rfl
      | true => exact absurd (List.elem_iff.mp hcc) hname
  · intro hrt
    rw [filterReleasedTags, if_neg (by simp [hrt])]

/-- C5 witness: with the default preferences (`released_tags = false`), a tag
whose name matches this batch's release is dropped and a tag matching no
release is kept. -/
theorem tag_release_collision_filter_witness :
    (RepoActivity.tag 7 sampleRepo { name := "v1.0", user := none }
      ∉ filterReleasedTags { }
        [RepoActivity.release 5 sampleRepo
          { tagName := "v1.0", isDraft := false, isPrerelease := false,
            url := "u" },
         RepoActivity.tag 7 sampleRepo { name := "v1.0", user := none },
         RepoActivity.tag 8 sampleRepo { name := "v2.0", user := none }])
    ∧ (RepoActivity.tag 8 sampleRepo { name := "v2.0", user := none }
      ∈ filterReleasedTags { }
        [RepoActivity.release 5 sampleRepo
          { tagName := "v1.0", isDraft := false, isPrerelease := false,
            url := "u" },
         RepoActivity.tag 7 sampleRepo { name := "v1.0", user := none },
         RepoActivity.tag 8 sampleRepo { name := "v2.0", user := none }]) := by
  have h := tag_release_collision_filter { }
    [RepoActivity.release 5 sampleRepo
      { tagName := "v1.0", isDraft := false, isPrerelease := false,
        url := "u" },
     RepoActivity.tag 7 sampleRepo { name := "v1.0", user := none },
     RepoActivity.tag 8 sampleRepo { name := "v2.0", user := none }]
  exact ⟨(h.1 (by decide) 7 sampleRepo { name := "v1.0", user := none }
      (by decide)).1 (by decide),
    (h.1 (by decide) 8 sampleRepo { name := "v2.0", user := none }
      (by decide)).2 (by decide)⟩

/-- `get_activity_types` does not depend on `my_activity`. -/
theorem get_activity_types_my_activity (p : ActivityPrefs) (b : Bool) :
    ActivityPrefs.get_activity_types
        { p with my_activity := b } = p.get_activity_types := rfl

/-- C6: the self-activity filter is pure filtering — with `my_activity`
false, every event whose `is_mine` predicate is true is excluded from the
repository's returned event list, while the state committed for the
repository stores exactly the cursors produced by the fetch, identical to
what is committed when `my_activity` is true (filtering never affects
pagination state). -/
theorem self_filter_purity (p : ActivityPrefs) (repo : Repository)
    (stored : CursorDict) (responses : List Response) (st : State)
    (evs : List Event) (now : Timestamp)
    (htypes : (ActivityPrefs.get_activity_types p).isEmpty = false) :
    (∀ ev ∈ applyFilters { p with my_activity := false }
        (Client.get_new_repo_activity repo p.get_activity_types stored
          responses).1,
      ev.is_mine = false)
    ∧ (visitStep (evs, st)
        { repo := repo, prefs := { p with my_activity := false },
          responses := responses, now := now }).2
      = st.set_cursors now repo
          (Client.get_new_repo_activity repo p.get_activity_types
            (st.get_cursors repo) responses).2
    ∧ (visitStep (evs, st)
          { repo := repo, prefs := { p with my_activity := false },
            responses := responses, now := now }).2
      = (visitStep (evs, st)
          { repo := repo, prefs := { p with my_activity := true },
            responses := responses, now := now }).2 := by
  have hmine : ∀ ev ∈ applyFilters { p with my_activity := false }
      (Client.get_new_repo_activity repo p.get_activity_types stored
        responses).1, ev.is_mine = false := by
    intro ev hev
    have h1 := mem_filterReleaseQuality _ _ _
      (mem_filterReleasedTags _ _ _ hev)
    rw [filterMyActivity] at h1
    simp only [Bool.not_false, if_pos] at h1
    have := (List.mem_filter.mp h1).2
    simpa using this
  have hstep : (visitStep (evs, st)
      { repo := repo, prefs := { p with my_activity := false },
        responses := responses, now := now }).2
      = st.set_cursors now repo
          (Client.get_new_repo_activity repo p.get_activity_types
            (st.get_cursors repo) responses).2 := by
    rw [visitStep]
    rw [if_neg (fun hcond => absurd hcond
      (by rw [get_activity_types_my_activity]; simp [htypes]))]
    rfl
  have hstep' : (visitStep (evs, st)
      { repo := repo, prefs := { p with my_activity := true },
        responses := responses, now := now }).2
      = st.set_cursors now repo
          (Client.get_new_repo_activity repo p.get_activity_types
            (st.get_cursors repo) responses).2 := by
    rw [visitStep]
    rw [if_neg (fun hcond => absurd hcond
      (by rw [get_activity_types_my_activity]; simp [htypes]))]
    rfl
  exact ⟨hmine, hstep, by rw [hstep, hstep']⟩

/-- C6 witness: with the default preferences, a viewer-authored issue is
excluded while the committed state is the same as with `my_activity` on. -/
theorem self_filter_purity_witness :
    (∀ ev ∈ applyFilters { my_activity := false }
        (Client.get_new_repo_activity sampleRepo
          (ActivityPrefs.get_activity_types { }) [] []).1,
      ev.is_mine = false)
    ∧ (visitStep ([], { old_state := [] })
          { repo := sampleRepo, prefs := { my_activity := false },
            responses := [], now := 0 }).2
      = (visitStep ([], { old_state := [] })
          { repo := sampleRepo, prefs := { my_activity := true },
            responses := [], now := 0 }).2 := by
  have h := self_filter_purity { } sampleRepo [] [] { old_state := [] } [] 0
    (by decide)
  exact ⟨h.1, h.2.2⟩

/-! ### Claim C4: global ordering -/

/-- C4 counterexample: for the concrete run in which the issues history spans
two pages and a discussion ties with the page-2 issue, the final list holds
the discussion (kind index 2, arrived in round trip 1) before the
equal-timestamp issue (kind index 0, arrived in round trip 2): equal-timestamp
events do not appear in repository-then-kind-then-arrival order, because
production order interleaves kinds page by page. -/
theorem global_ordering_counterexample :
    ¬ ((RepoNews.get_new_activity c4state [c4visit] 2000).1).Pairwise
        (fun a b => a.timestamp = b.timestamp → a.kindIndex ≤ b.kindIndex) := by
  have h1 : (RepoNews.get_new_activity c4state [c4visit] 2000).1 =
      (producedEvents c4state [c4visit] 2000).mergeSort eventLE := rfl
  have hprod : producedEvents c4state [c4visit] 2000
      = [c4evIssue1, c4evDisc5, c4evIssue5] := by decide
  have hres : (RepoNews.get_new_activity c4state [c4visit] 2000).1
      = [c4evIssue1, c4evDisc5, c4evIssue5] := by
    rw [h1, hprod]
    exact List.mergeSort_of_sorted (by decide)
  rw [hres]
  decide

/-- C4 (amended): the final returned event list is the stable merge sort of
the produced event list by timestamp: it is non-decreasing by timestamp, and
events with equal timestamps preserve the order in which they were produced
(repository enumeration order, then round-trip order, then kind order within
a round trip, then in-page arrival order). -/
theorem global_ordering_stable_sort (st0 : State) (visits : List RepoVisit)
    (endNow : Timestamp) :
    (RepoNews.get_new_activity st0 visits endNow).1 =
      (producedEvents st0 visits endNow).mergeSort eventLE
    ∧ ((RepoNews.get_new_activity st0 visits endNow).1).Pairwise
        (fun a b => a.timestamp ≤ b.timestamp)
    ∧ (∀ a b : Event,
        List.Sublist [a, b] (producedEvents st0 visits endNow) →
        a.timestamp ≤ b.timestamp →
        List.Sublist [a, b]
          ((RepoNews.get_new_activity st0 visits endNow).1)) := by
  have htrans : ∀ a b c : Event, eventLE a b → eventLE b c → eventLE a c := by
    intro a b c
    simp only [eventLE, decide_eq_true_eq]
    exact le_trans
  have htotal : ∀ a b : Event, eventLE a b || eventLE b a := by
    intro a b
    simp only [eventLE, Bool.or_eq_true, decide_eq_true_eq]
    exact le_total _ _
  refine ⟨rfl, ?_, ?_⟩
  · have hs := List.sorted_mergeSort htrans htotal
      (producedEvents st0 visits endNow)
    apply hs.imp
    intro a b hab
    simpa [eventLE] using hab
  · intro a b hsub hle
    exact List.pair_sublist_mergeSort htrans htotal
      (by simpa [eventLE] using hle) hsub

/-- C4 witness: the stability clause at the concrete two-event tie. -/
theorem global_ordering_stable_sort_witness :
    List.Sublist [c4evDisc5, c4evIssue5]
      ((RepoNews.get_new_activity c4state [c4visit] 2000).1) := by
  have h := (global_ordering_stable_sort c4state [c4visit] 2000).2.2
    c4evDisc5 c4evIssue5 ?hsub (by decide)
  · exact h
  case hsub =>
    have hprod : producedEvents c4state [c4visit] 2000
        = [c4evIssue1, c4evDisc5, c4evIssue5] := by decide
    rw [hprod]
    exact List.sublist_cons_self c4evIssue1 [c4evDisc5, c4evIssue5]

/-! ### Claims C8 (run atomicity) and C9 (transport retries) -/

/-- C8: run atomicity with respect to persisted state — if any step of the
run raises, the previously persisted snapshot file is left exactly untouched
and zero writes occur; when the entire run completes successfully the new
snapshot is written exactly once (zero times with `--no-save`), at the very
end, and its contents are the completed run's new snapshot. -/

theorem run_atomicity (fs : StateFile) (st0 : State)
    (visits : List FallibleVisit) (endNow : Timestamp) (sendFails : Bool)
    (save : Bool) :
    ((mainRun fs st0 visits endNow sendFails save).1.isSome →
      (mainRun fs st0 visits endNow sendFails save).2.1 = fs
      ∧ (mainRun fs st0 visits endNow sendFails save).2.2 = 0)
    ∧ ((mainRun fs st0 visits endNow sendFails save).1 = none →
      (mainRun fs st0 visits endNow sendFails save).2.2
        = (if save then 1 else 0)
      ∧ (save = true →
        ∃ res, getNewActivityExc st0 visits endNow = .ok res
          ∧ (mainRun fs st0 visits endNow sendFails save).2.1
            = res.2.save fs)) := by
  unfold mainRun
  cases hexc : getNewActivityExc st0 visits endNow with
  | error e => simp
  | ok res =>
    by_cases hsend : ¬res.1 = [] ∧ sendFails = true
    · simp [hsend]
    · by_cases hsave : save = true
      · simp [hsend, hsave]
      · simp [hsend, hsave]

/-- C8 witness: a run whose fetch raises leaves the state file untouched with
zero writes; a successful empty run with `--save` writes exactly once. -/
theorem run_atomicity_witness :
    ((mainRun { contents := none } { old_state := [] } [none] 0 false
        true).2.1 = { contents := none }
      ∧ (mainRun { contents := none } { old_state := [] } [none] 0 false
        true).2.2 = 0)
    ∧ (mainRun { contents := none } { old_state := [] } [] 0 false
        true).2.2 = 1 := by
  refine ⟨(run_atomicity { contents := none } { old_state := [] } [none] 0
    false true).1 (by decide), ?_⟩
  have hnone : (mainRun { contents := none } { old_state := [] } [] 0 false
      true).1 = none := by
    simp [mainRun, getNewActivityExc, getNewActivityExc.go,
      State.get_state_events]
  exact ((run_atomicity { contents := none } { old_state := [] } [] 0
    false true).2 hnone).1.trans (by decide)

/-- C9: transport retry policy — network-level failures and HTTP
500/502/503/504 are retried up to 5 times with increasing delay
`min(1.25 * 2^i, 120)` seconds for retry attempt `i`, raising a fatal error
only after exhausting the retries; any other non-2xx status (with or without
a parseable error body) is fatal immediately with no retry and no delay.  In
particular 3 consecutive 503 responses followed by a success succeed with
exactly 3 delayed retries at strictly increasing delays. -/
theorem transport_retry_policy :
    (Client.query_transport
        [.http 503 true, .http 503 true, .http 503 true, .success]
      = (.success, [backoffDelay 1, backoffDelay 2, backoffDelay 3]))
    ∧ backoffDelay 1 < backoffDelay 2 ∧ backoffDelay 2 < backoffDelay 3
    ∧ (∀ i : Nat, backoffDelay i = min ((5 / 4 : ℚ) * 2 ^ i) 120)
    ∧ (∀ (s : Nat) (pb : Bool) (rest : List HttpOutcome),
        retriable (.http s pb) = false →
        Client.query_transport (.http s pb :: rest) = (.fatalImmediate, []))
    ∧ (∀ rest : List HttpOutcome,
        Client.query_transport
          (.http 503 true :: .http 503 true :: .http 503 true ::
            .http 503 true :: .http 503 true :: .http 503 true :: rest)
        = (.fatalExhausted,
           [backoffDelay 1, backoffDelay 2, backoffDelay 3, backoffDelay 4,
            backoffDelay 5])) := by
  refine ⟨rfl, ?_, ?_, fun i => rfl, ?_, ?_⟩
  · norm_num [backoffDelay, min_def]
  · norm_num [backoffDelay, min_def]
  · intro s pb rest h
    simp [Client.query_transport, retryLoop, h]
  · intro rest
    rfl

/-- C9 witness: a 404 is fatal immediately, with no retry and no delay. -/
theorem transport_retry_policy_witness :
    Client.query_transport [.http 404 true] = (.fatalImmediate, []) :=
  transport_retry_policy.2.2.2.2.1 404 true [] (by decide)

/-! ### Claim C7: rename detection -/

theorem dlookup_some_mem [DecidableEq α] (d : Dict α β) (k : α) (v : β)
    (h : dlookup d k = some v) : (k, v) ∈ d := by
  induction d with
  | nil => cases h
  | cons q qs ih =>
    by_cases hq : q.1 = k
    · rw [dlookup, if_pos hq] at h
      injection h with h
      have hqe : q = (k, v) := by rw [← hq, ← h]
      exact List.mem_cons.mpr (Or.inl hqe.symm)
    · rw [dlookup, if_neg hq] at h
      exact List.mem_cons_of_mem _ (ih h)

theorem dlookup_none_keys [DecidableEq α] (d : Dict α β) (k : α)
    (h : dlookup d k = none) : ∀ p ∈ d, p.1 ≠ k := by
  induction d with
  | nil =>
    intro p hp
    cases hp
  | cons q qs ih =>
    intro p hp
    by_cases hq : q.1 = k
    · rw [dlookup, if_pos hq] at h
      cases h
    · rcases List.mem_cons.mp hp with he | hp'
      · rw [he]
        exact hq
      · exact ih (by rwa [dlookup, if_neg hq] at h) p hp'

theorem mem_derase [DecidableEq α] (d : Dict α β) (k : α) (p : α × β)
    (h : p ∈ derase d k) : p ∈ d := by
  induction d with
  | nil => cases h
  | cons q qs ih =>
    by_cases hq : q.1 = k
    · rw [derase, if_pos hq] at h
      exact List.mem_cons_of_mem _ h
    · rw [derase, if_neg hq] at h
      rcases List.mem_cons.mp h with he | h'
      · rw [he]
        exact List.mem_cons_self _ _
      · exact List.mem_cons_of_mem _ (ih h')

theorem derase_keys_sublist [DecidableEq α] (d : Dict α β) (k : α) :
    List.Sublist ((derase d k).map Prod.fst) (d.map Prod.fst) := by
  induction d with
  | nil => exact List.Sublist.refl _
  | cons q qs ih =>
    by_cases hq : q.1 = k
    · rw [derase, if_pos hq]
      exact List.sublist_cons_self _ _
    · rw [derase, if_neg hq, List.map_cons, List.map_cons]
      exact ih.cons₂ _

/-- Activity events are never lifecycle events. -/
theorem filter_lifecycle_map_activity (rid : String) (l : List RepoActivity) :
    (l.map Event.activity).filter (Event.isLifecycleOf rid) = [] := by
  induction l with
  | nil => rfl
  | cons a as ih => simp [Event.isLifecycleOf, ih]

/-- A visit for a different repository id leaves that id's old-snapshot
entry, its lifecycle events and the well-formedness untouched. -/
theorem visitStep_away (acc : List Event × State) (v : RepoVisit)
    (rid : String) (hne : v.repo.id ≠ rid) (hwf : stateWF acc.2) :
    dlookup (visitStep acc v).2.old_state rid = dlookup acc.2.old_state rid
    ∧ (visitStep acc v).2.state_events.filter (Event.isLifecycleOf rid)
        = acc.2.state_events.filter (Event.isLifecycleOf rid)
    ∧ (visitStep acc v).1.filter (Event.isLifecycleOf rid)
        = acc.1.filter (Event.isLifecycleOf rid)
    ∧ stateWF (visitStep acc v).2 := by
  by_cases ht : (v.prefs.get_activity_types).isEmpty = true
  · rw [visitStep, if_pos ht]
    exact ⟨rfl, rfl, rfl, hwf⟩
  · rw [visitStep, if_neg ht]
    dsimp only
    rw [State.set_cursors.eq_def]
    cases hold : dlookup acc.2.old_state v.repo.id with
    | none =>
      refine ⟨rfl, ?_, ?_, hwf⟩
      · have hx : Event.isLifecycleOf rid (.tracked v.now v.repo) = false := by
          simp [Event.isLifecycleOf, hne]
        simp [List.filter_append, hx]
      · simp [List.filter_append, filter_lifecycle_map_activity]
    | some old =>
      have hom : (v.repo.id, old) ∈ acc.2.old_state :=
        dlookup_some_mem _ _ _ hold
      have hoid : old.repo.id = v.repo.id := hwf.2 (v.repo.id, old) hom
      dsimp only
      refine ⟨dlookup_derase_ne _ (fun he => hne he.symm), ?_, ?_, ?_⟩
      · have hx : Event.isLifecycleOf rid (.renamed v.now v.repo old.repo)
            = false := by
          simp [Event.isLifecycleOf, hne, hoid]
        by_cases hname : old.repo.nameWithOwner ≠ v.repo.nameWithOwner
        · rw [if_pos hname]
          simp [List.filter_append, hx]
        · rw [if_neg hname]
      · simp [List.filter_append, filter_lifecycle_map_activity]
      · constructor
        · exact hwf.1.sublist (derase_keys_sublist _ _)
        · intro p hp
          exact hwf.2 p (mem_derase _ _ _ hp)

/-- The visit of a repository present in the old snapshot: its entry is
consumed, exactly one Renamed event is recorded when the full name changed
and no lifecycle event otherwise, and no lifecycle event enters the activity
list. -/
theorem visitStep_target (acc : List Event × State) (v : RepoVisit)
    (oldRS : RepoState) (hwf : stateWF acc.2)
    (hold : dlookup acc.2.old_state v.repo.id = some oldRS)
    (htypes : (v.prefs.get_activity_types).isEmpty = false) :
    dlookup (visitStep acc v).2.old_state v.repo.id = none
    ∧ (visitStep acc v).2.state_events.filter
        (Event.isLifecycleOf v.repo.id)
      = acc.2.state_events.filter (Event.isLifecycleOf v.repo.id)
        ++ (if oldRS.repo.nameWithOwner ≠ v.repo.nameWithOwner
            then [.renamed v.now v.repo oldRS.repo] else [])
    ∧ (visitStep acc v).1.filter (Event.isLifecycleOf v.repo.id)
      = acc.1.filter (Event.isLifecycleOf v.repo.id)
    ∧ stateWF (visitStep acc v).2 := by
  rw [visitStep, if_neg (by simp [htypes])]
  dsimp only
  rw [State.set_cursors.eq_def, hold]
  dsimp only
  refine ⟨dlookup_derase_self _ _ hwf.1, ?_, ?_, ?_⟩
  · have hx : Event.isLifecycleOf v.repo.id
        (.renamed v.now v.repo oldRS.repo) = true := by
      simp [Event.isLifecycleOf]
    by_cases hname : oldRS.repo.nameWithOwner ≠ v.repo.nameWithOwner
    · rw [if_pos hname, if_pos hname]
      simp [List.filter_append, hx]
    · rw [if_neg hname, if_neg hname]
      simp
  · simp [List.filter_append, filter_lifecycle_map_activity]
  · constructor
    · exact hwf.1.sublist (derase_keys_sublist _ _)
    · intro p hp
      exact hwf.2 p (mem_derase _ _ _ hp)

/-- Folding visits none of which carries the given id preserves that id's
old-snapshot entry, its lifecycle events and well-formedness. -/
theorem runfold_away (rid : String) :
    ∀ (vs : List RepoVisit) (acc : List Event × State),
      (∀ u ∈ vs, u.repo.id ≠ rid) → stateWF acc.2 →
      dlookup (vs.foldl visitStep acc).2.old_state rid
          = dlookup acc.2.old_state rid
      ∧ (vs.foldl visitStep acc).2.state_events.filter
          (Event.isLifecycleOf rid)
        = acc.2.state_events.filter (Event.isLifecycleOf rid)
      ∧ (vs.foldl visitStep acc).1.filter (Event.isLifecycleOf rid)
        = acc.1.filter (Event.isLifecycleOf rid)
      ∧ stateWF (vs.foldl visitStep acc).2
  | [], _, _, hwf => ⟨rfl, rfl, rfl, hwf⟩
  | u :: rest, acc, hno, hwf => by
    have hstep := visitStep_away acc u rid (hno u (List.mem_cons_self _ _)) hwf
    have hrec := runfold_away rid rest (visitStep acc u)
      (fun x hx => hno x (List.mem_cons_of_mem _ hx)) hstep.2.2.2
    rw [List.foldl_cons]
    exact ⟨hrec.1.trans hstep.1, hrec.2.1.trans hstep.2.1,
      hrec.2.2.1.trans hstep.2.2.1, hrec.2.2.2⟩

/-- C7: rename detection — when a repository id is present in both the old
snapshot and the current run under a different full name, committing its
cursors emits exactly one Renamed event carrying the old and the new
repository, and no Tracked or Untracked event carrying that id appears
anywhere in the run's output; with an unchanged full name the run emits no
lifecycle event for that id at all.  Both facts hold in the produced event
list and in the final sorted output. -/
theorem rename_detection (st0 : State) (pre post : List RepoVisit)
    (v : RepoVisit) (endNow : Timestamp) (oldRS : RepoState)
    (hwf0 : stateWF st0)
    (hse0 : st0.state_events = [])
    (hold : dlookup st0.old_state v.repo.id = some oldRS)
    (hdisj : ∀ u ∈ pre ++ post, u.repo.id ≠ v.repo.id)
    (htypes : (v.prefs.get_activity_types).isEmpty = false) :
    (oldRS.repo.nameWithOwner ≠ v.repo.nameWithOwner →
      (producedEvents st0 (pre ++ v :: post) endNow).filter
          (Event.isLifecycleOf v.repo.id)
        = [.renamed v.now v.repo oldRS.repo]
      ∧ ((RepoNews.get_new_activity st0 (pre ++ v :: post) endNow).1).filter
          (Event.isLifecycleOf v.repo.id)
        = [.renamed v.now v.repo oldRS.repo])
    ∧ (oldRS.repo.nameWithOwner = v.repo.nameWithOwner →
      (producedEvents st0 (pre ++ v :: post) endNow).filter
          (Event.isLifecycleOf v.repo.id) = []
      ∧ ((RepoNews.get_new_activity st0 (pre ++ v :: post) endNow).1).filter
          (Event.isLifecycleOf v.repo.id) = []) := by
  have hpre := runfold_away v.repo.id pre ([], st0)
    (fun u hu => hdisj u (List.mem_append.mpr (Or.inl hu))) hwf0
  have holdPre : dlookup (pre.foldl visitStep ([], st0)).2.old_state v.repo.id
      = some oldRS := hpre.1.trans hold
  have hstep := visitStep_target (pre.foldl visitStep ([], st0)) v oldRS
    hpre.2.2.2 holdPre htypes
  have hpost := runfold_away v.repo.id post
    (visitStep (pre.foldl visitStep ([], st0)) v)
    (fun u hu => hdisj u (List.mem_append.mpr (Or.inr hu))) hstep.2.2.2
  have hfold : (pre ++ v :: post).foldl visitStep ([], st0)
      = post.foldl visitStep (visitStep (pre.foldl visitStep ([], st0)) v) := by
    rw [List.foldl_append, List.foldl_cons]
  have hse : ((pre ++ v :: post).foldl visitStep ([], st0)).2.state_events.filter
      (Event.isLifecycleOf v.repo.id)
      = (if oldRS.repo.nameWithOwner ≠ v.repo.nameWithOwner
         then [.renamed v.now v.repo oldRS.repo] else []) := by
    rw [hfold, hpost.2.1, hstep.2.1, hpre.2.1]
    simp [hse0]
  have hev : ((pre ++ v :: post).foldl visitStep ([], st0)).1.filter
      (Event.isLifecycleOf v.repo.id) = [] := by
    rw [hfold, hpost.2.2.1, hstep.2.2.1, hpre.2.2.1]
    rfl
  have hnone : dlookup ((pre ++ v :: post).foldl visitStep
      ([], st0)).2.old_state v.repo.id = none := by
    rw [hfold]
    exact hpost.1.trans hstep.1
  have hwffinal : stateWF ((pre ++ v :: post).foldl visitStep ([], st0)).2 := by
    rw [hfold]
    exact hpost.2.2.2
  have huntr : (((pre ++ v :: post).foldl visitStep
      ([], st0)).2.old_state.map
        (fun p => Event.untracked endNow p.2.repo)).filter
      (Event.isLifecycleOf v.repo.id) = [] := by
    apply List.filter_eq_nil_iff.mpr
    intro e he
    rcases List.mem_map.mp he with ⟨q, hq, rfl⟩
    have hkey : q.2.repo.id = q.1 := hwffinal.2 q hq
    have hne' : q.1 ≠ v.repo.id := dlookup_none_keys _ _ hnone q hq
    simp [Event.isLifecycleOf, hkey, hne']
  have hprodfilter : (producedEvents st0 (pre ++ v :: post) endNow).filter
      (Event.isLifecycleOf v.repo.id)
      = (if oldRS.repo.nameWithOwner ≠ v.repo.nameWithOwner
         then [.renamed v.now v.repo oldRS.repo] else []) := by
    have hsplit : producedEvents st0 (pre ++ v :: post) endNow
        = ((pre ++ v :: post).foldl visitStep ([], st0)).1
          ++ (((pre ++ v :: post).foldl visitStep ([], st0)).2.state_events
            ++ ((pre ++ v :: post).foldl visitStep ([], st0)).2.old_state.map
                (fun p => Event.untracked endNow p.2.repo)) := rfl
    rw [hsplit, List.filter_append, List.filter_append, hev, hse, huntr]
    simp
  have hsorted : ((RepoNews.get_new_activity st0 (pre ++ v :: post)
      endNow).1).filter (Event.isLifecycleOf v.repo.id)
      = (producedEvents st0 (pre ++ v :: post) endNow).filter
          (Event.isLifecycleOf v.repo.id)
      ∨ True := Or.inr trivial
  have hperm : List.Perm
      (((RepoNews.get_new_activity st0 (pre ++ v :: post) endNow).1).filter
        (Event.isLifecycleOf v.repo.id))
      ((producedEvents st0 (pre ++ v :: post) endNow).filter
        (Event.isLifecycleOf v.repo.id)) :=
    (List.mergeSort_perm (producedEvents st0 (pre ++ v :: post) endNow)
      eventLE).filter (Event.isLifecycleOf v.repo.id)
  constructor
  · intro hname
    have h1 : (producedEvents st0 (pre ++ v :: post) endNow).filter
        (Event.isLifecycleOf v.repo.id)
        = [.renamed v.now v.repo oldRS.repo] := by
      rw [hprodfilter, if_pos hname]
    refine ⟨h1, ?_⟩
    have := hperm
    rw [h1] at this
    exact List.perm_singleton.mp this
  · intro hname
    have h1 : (producedEvents st0 (pre ++ v :: post) endNow).filter
        (Event.isLifecycleOf v.repo.id) = [] := by
      rw [hprodfilter, if_neg (by simp [hname])]
    refine ⟨h1, ?_⟩
    have := hperm
    rw [h1] at this
    exact List.perm_nil.mp this

/-- C7 witness: a rename emits exactly one Renamed event (old name to new
name) and no other lifecycle event for that id, both in production order and
in the sorted output. -/
theorem rename_detection_witness :
    (producedEvents c7state [c7visit] 99).filter
        (Event.isLifecycleOf ("id:viewer/repo"))
      = [.renamed 50 sampleRepo c7oldRepo]
    ∧ ((RepoNews.get_new_activity c7state [c7visit] 99).1).filter
        (Event.isLifecycleOf ("id:viewer/repo"))
      = [.renamed 50 sampleRepo c7oldRepo] :=
  (rename_detection c7state [] [] c7visit 99
    { repo := c7oldRepo, cursors := [] }
    ⟨by decide, by decide⟩ rfl (by decide)
    (fun u hu => by simp at hu) (by decide)).1 (by decide)

end Reponews

